import Mathlib

/-!
Verification of the overthrow repository (a Coup card-game engine and server)
against its natural-language specification.

The definitions below are a shallow embedding of the Rust sources:

  overthrow-engine/src/deck.rs, coins.rs, action.rs, players.rs,
  current_player.rs, game.rs, machine.rs
  overthrow-server/src/game.rs (the coordinator select branches)

Conventions of the embedding:
  - u8 counters become Nat (all reachable values are bounded by 50,
    far below the u8 range, so wrapping never occurs on reachable states);
  - Rust panics (expect / unwrap / panic / unreachable) become Option
    results: a none models an aborted transition;
  - the HashMap containers keyed by PlayerId become total functions
    PlayerId -> Option _, iterated in the canonical seat order
    One..Six (one of the possible HashMap iteration orders);
  - Vec::shuffle is modelled as the identity permutation.  Every claim
    treated here depends only on the multiset or on the length of the
    deck, both invariant under an arbitrary permutation;
  - Vec::pop draws from the end of the list, as in the source.
-/

namespace Overthrow

/-- Card enumeration from deck.rs. -/
inductive Card where
  | Ambassador
  | Contessa
  | Assassin
  | Duke
  | Captain
deriving DecidableEq, Repr, Fintype

/-- BlockStealClaim subenum of Card from deck.rs. -/
inductive BlockStealClaim where
  | Ambassador
  | Captain
deriving DecidableEq, Repr, Fintype

/-- Conversion From of BlockStealClaim for Card, deck.rs. -/
def BlockStealClaim.toCard : BlockStealClaim → Card
  | .Ambassador => Card.Ambassador
  | .Captain => Card.Captain

/-- DeadCard newtype from deck.rs: a revealed card. -/
structure DeadCard where
  card : Card
deriving DecidableEq, Repr

/-- Hand from deck.rs: two hidden cards, or one hidden plus one revealed. -/
inductive Hand where
  | Full (c1 c2 : Card)
  | Last (c : Card) (d : DeadCard)
deriving DecidableEq, Repr

/-- Hand.has_card from deck.rs: only hidden cards count. -/
def Hand.has_card : Hand → Card → Bool
  | .Full c1 c2, card => c1 = card || c2 = card
  | .Last c1 _, card => c1 = card

/-- DeadHand from deck.rs: both cards revealed. -/
structure DeadHand where
  d1 : DeadCard
  d2 : DeadCard
deriving DecidableEq, Repr

/-- The standard 15 card starting deck, deck.rs STARTING_DECK. -/
def STARTING_DECK : List Card :=
  [Card.Ambassador, Card.Ambassador, Card.Ambassador,
   Card.Assassin, Card.Assassin, Card.Assassin,
   Card.Captain, Card.Captain, Card.Captain,
   Card.Contessa, Card.Contessa, Card.Contessa,
   Card.Duke, Card.Duke, Card.Duke]

/-- PlayerId from players.rs: the six possible seats. -/
inductive PlayerId where
  | One
  | Two
  | Three
  | Four
  | Five
  | Six
deriving DecidableEq, Repr, Fintype

/-- PlayerId.iter from players.rs: the canonical seat order. -/
def PlayerId.iter : List PlayerId :=
  [.One, .Two, .Three, .Four, .Five, .Six]

/-- PlayersInitError from players.rs. -/
inductive PlayersInitError where
  | TooManyPlayers (player_count : Nat)
  | TooFewPlayers (player_count : Nat)
deriving DecidableEq, Repr

/-- RawPlayers newtype from players.rs: validated list of names. -/
structure RawPlayers where
  names : List String
  count : Nat
deriving DecidableEq, Repr

/-- RawPlayers::with_names from players.rs, lines 116-131, verbatim branch
structure: note which error variant each branch returns in the source. -/
def RawPlayers.with_names (names : List String) :
    Except PlayersInitError RawPlayers :=
  let player_count := names.length
  if player_count > 6 then
    Except.error (PlayersInitError.TooFewPlayers player_count)
  else if player_count < 2 then
    Except.error (PlayersInitError.TooManyPlayers player_count)
  else
    Except.ok { names := names, count := player_count }

/-- SafeAct subenum from action.rs. -/
inductive SafeAct where
  | Income
  | Coup (victim : PlayerId)
deriving DecidableEq, Repr

/-- OnlyChallengeableAct subenum from action.rs. -/
inductive OnlyChallengeableAct where
  | Tax
  | Exchange
deriving DecidableEq, Repr

/-- ReactableAct subenum from action.rs. -/
inductive ReactableAct where
  | Steal (victim : PlayerId)
  | Assassinate (victim : PlayerId)
deriving DecidableEq, Repr

/-- Act from action.rs: every declarable action kind. -/
inductive Act where
  | Income
  | ForeignAid
  | Tax
  | Exchange
  | Steal (victim : PlayerId)
  | Assassinate (victim : PlayerId)
  | Coup (victim : PlayerId)
deriving DecidableEq, Repr

/-- Act::claim from action.rs lines 91-101. -/
def Act.claim : Act → Option Card
  | .Income => none
  | .ForeignAid => none
  | .Tax => some Card.Duke
  | .Exchange => some Card.Ambassador
  | .Steal _ => some Card.Captain
  | .Assassinate _ => some Card.Assassin
  | .Coup _ => none

/-- Action from action.rs: an actor together with an action kind. -/
structure Action where
  actor : PlayerId
  kind : Act
deriving DecidableEq, Repr

/-- BlockableAct from action.rs. -/
inductive BlockableAct where
  | ForeignAid
  | Steal (victim : PlayerId) (claim : BlockStealClaim)
  | Assassinate (victim : PlayerId)
deriving DecidableEq, Repr

/-- ChallengeableAct from action.rs. -/
inductive ChallengeableAct where
  | Exchange
  | Tax
  | Steal (victim : PlayerId)
  | Assassinate (victim : PlayerId)
  | BlockAssassination
  | BlockForeignAid
  | BlockSteal (claim : BlockStealClaim)
deriving DecidableEq, Repr

/-- Conversion From of ChallengeableAct for Card, action.rs lines 188-200:
the card a challengeable act claims, used by challenge resolution. -/
def ChallengeableAct.toCard : ChallengeableAct → Card
  | .Assassinate _ => Card.Assassin
  | .Exchange => Card.Ambassador
  | .Tax => Card.Duke
  | .Steal _ => Card.Captain
  | .BlockAssassination => Card.Contessa
  | .BlockForeignAid => Card.Duke
  | .BlockSteal claim => claim.toCard

/-- Conversion From of ReactableAct for ChallengeableAct, action.rs 104-113. -/
def ReactableAct.toChallengeable : ReactableAct → ChallengeableAct
  | .Steal victim => ChallengeableAct.Steal victim
  | .Assassinate victim => ChallengeableAct.Assassinate victim

/-- Conversion From of OnlyChallengeableAct for ChallengeableAct,
action.rs 202-209. -/
def OnlyChallengeableAct.toChallengeable :
    OnlyChallengeableAct → ChallengeableAct
  | .Exchange => ChallengeableAct.Exchange
  | .Tax => ChallengeableAct.Tax

/-- Block from action.rs: a declared interception. -/
structure Block where
  actor : PlayerId
  blocker : PlayerId
  kind : BlockableAct
deriving DecidableEq, Repr

/-- Block::claim from action.rs lines 231-243: the card this block claims. -/
def Block.claim (b : Block) : Card :=
  match b.kind with
  | .ForeignAid => Card.Duke
  | .Steal _ claim =>
    if claim = BlockStealClaim.Ambassador then Card.Ambassador
    else Card.Captain
  | .Assassinate _ => Card.Assassin

/-- Blocks from action.rs: the one or two block offers for an action. -/
inductive Blocks where
  | Other (b : Block)
  | Steal (b1 b2 : Block)
deriving DecidableEq, Repr

/-- Blocks::claims from action.rs lines 152-157: does some offered block
claim this card.  This is the validation used by the client session in
overthrow-server/src/client.rs handle_blocks (lines 268-287). -/
def Blocks.claims : Blocks → Card → Bool
  | .Other b1, card => b1.claim = card
  | .Steal b1 b2, card => b1.claim = card || b2.claim = card

/-- Challenge from action.rs. -/
structure Challenge where
  actor : PlayerId
  challenger : PlayerId
  kind : ChallengeableAct
deriving DecidableEq, Repr

/-- Player from players.rs: an alive seat. -/
structure Player where
  name : String
  coins : Nat
  hand : Hand
deriving DecidableEq, Repr

/-- Player::can_coup from players.rs line 65. -/
def Player.can_coup (p : Player) : Bool := decide (7 ≤ p.coins)

/-- Player::can_assasinate from players.rs line 69. -/
def Player.can_assasinate (p : Player) : Bool := decide (3 ≤ p.coins)

/-- Player::can_steal_from from players.rs line 73: a seat can be stolen
from only when it holds at least 2 coins. -/
def Player.can_steal_from (p : Player) : Bool := decide (2 ≤ p.coins)

/-- DeadPlayer from players.rs. -/
structure DeadPlayer where
  name : String
  hand : DeadHand
deriving DecidableEq, Repr

/-- PlayerCoins::steal from coins.rs lines 14-23: the victim loses exactly
two coins (checked_sub(2).expect, a panic when fewer than two are held,
modelled by none) and the thief gains exactly two. -/
def PlayerCoins.steal (victim thief : Nat) : Option (Nat × Nat) :=
  if 2 ≤ victim then some (victim - 2, thief + 2) else none

/-- Withdrawal from coins.rs: amounts a player takes from the pile. -/
inductive Withdrawal where
  | Income
  | ForeignAid
  | Tax
deriving DecidableEq, Repr

/-- Discriminant values of Withdrawal from coins.rs. -/
def Withdrawal.amount : Withdrawal → Nat
  | .Income => 1
  | .ForeignAid => 2
  | .Tax => 3

/-- Deposit from coins.rs: amounts a player pays into the pile. -/
inductive Deposit where
  | Assassinate
  | Coup
deriving DecidableEq, Repr

/-- Discriminant values of Deposit from coins.rs. -/
def Deposit.amount : Deposit → Nat
  | .Assassinate => 3
  | .Coup => 7

/-- STARTING_COINS from coins.rs. -/
def STARTING_COINS : Nat := 50

/-- CoinPile::with_count from coins.rs lines 65-73: the pile and the coin
allotment of each player. -/
def CoinPile.with_count (player_count : Nat) : Nat × List Nat :=
  (STARTING_COINS - player_count * 2, List.replicate player_count 2)

/-- CoinPile::withdraw from coins.rs lines 85-99: moves the withdrawal
amount from the pile to the player, failing when the pile is short. -/
def CoinPile.withdraw (pile : Nat) (w : Withdrawal) (coins : Nat) :
    Option (Nat × Nat) :=
  if w.amount ≤ pile then some (pile - w.amount, coins + w.amount) else none

/-- CoinPile::spend from coins.rs lines 102-118: moves the deposit amount
from the player to the pile, failing when the player is short. -/
def CoinPile.spend (pile : Nat) (dep : Deposit) (coins : Nat) :
    Option (Nat × Nat) :=
  if dep.amount ≤ coins then some (pile + dep.amount, coins - dep.amount)
  else none

/-- CurrentPlayer from current_player.rs: a doubly linked ring stored as a
map from id to the (previous, next) pair, plus the cursor. -/
structure CurrentPlayer where
  order : PlayerId → Option (PlayerId × PlayerId)
  current_player : PlayerId

/-- Emptiness test of the order map, HashMap::is_empty in the source. -/
def CurrentPlayer.orderIsEmpty (cp : CurrentPlayer) : Bool :=
  PlayerId.iter.all (fun id => cp.order id = none)

/-- CurrentPlayer::with_players from current_player.rs lines 16-40, taking
the key order as a parameter (the source sorts the ids under test and
shuffles them otherwise). -/
def CurrentPlayer.with_players (ids : List PlayerId) : Option CurrentPlayer :=
  match ids with
  | [] => none
  | first :: _ =>
    let n := ids.length
    let order := (List.range n).foldl
      (fun acc i => fun id =>
        if id = ids.getD i first then
          some (ids.getD (if i = 0 then n - 1 else i - 1) first,
                ids.getD ((i + 1) % n) first)
        else acc id)
      (fun _ => none)
    some { order := order, current_player := first }

/-- CurrentPlayer::current from current_player.rs. -/
def CurrentPlayer.current (cp : CurrentPlayer) : PlayerId := cp.current_player

/-- CurrentPlayer::end_turn from current_player.rs lines 46-51: move the
cursor to the next entry of the ring. -/
def CurrentPlayer.end_turn (cp : CurrentPlayer) : Option CurrentPlayer :=
  if cp.orderIsEmpty then some cp
  else
    match cp.order cp.current_player with
    | none => none
    | some (_, next) => some { cp with current_player := next }

/-- CurrentPlayer::kill from current_player.rs lines 59-78: remove the seat
from the ring, re-anchoring the cursor on the next seat when the removed
seat was current, and relink its neighbours. -/
def CurrentPlayer.kill (cp : CurrentPlayer) (id : PlayerId) :
    Option CurrentPlayer :=
  if cp.orderIsEmpty then some cp
  else
    match cp.order id with
    | none => none
    | some (prev, next) =>
      let current :=
        if cp.current_player = id then next else cp.current_player
      let order1 : PlayerId → Option (PlayerId × PlayerId) :=
        fun j => if j = id then none else cp.order j
      let cur := prev
      let order2 :=
        match order1 cur with
        | some (p, _) =>
          fun j => if j = cur then some (p, next) else order1 j
        | none => order1
      let order3 :=
        match order2 next with
        | some (_, n_next) =>
          fun j => if j = next then some (cur, n_next) else order2 j
        | none => order2
      some { order := order3, current_player := current }

/-- Players from players.rs: alive map, dead map and turn ring. -/
structure Players where
  alive : PlayerId → Option Player
  dead : PlayerId → Option DeadPlayer
  current_player : CurrentPlayer

/-- Alive seat ids in canonical iteration order. -/
def Players.aliveIds (ps : Players) : List PlayerId :=
  PlayerId.iter.filter (fun id => (ps.alive id).isSome)

/-- Players::with_players from players.rs lines 142-149 (alive-key order for
the ring is the canonical order, the configuration the source tests use). -/
def Players.with_players (ps : List (PlayerId × Player)) : Option Players :=
  let alive := ps.foldl
    (fun acc e => fun id => if id = e.1 then some e.2 else acc id)
    (fun _ => none)
  let aliveIds := PlayerId.iter.filter (fun id => (alive id).isSome)
  match CurrentPlayer.with_players aliveIds with
  | none => none
  | some cp =>
    some { alive := alive, dead := fun _ => none, current_player := cp }

/-- Players::has_card from players.rs lines 151-154 (none when the seat is
not alive, a panic in the source). -/
def Players.has_card (ps : Players) (actor : PlayerId) (card : Card) :
    Option Bool :=
  (ps.alive actor).map (fun p => p.hand.has_card card)

/-- Players::challenge_winner from players.rs lines 156-167.  Despite the
name, the returned id is used by the callers as the loser of the challenge,
the seat that loses influence: the challenger when the actor holds the
claimed card, the actor otherwise. -/
def Players.challenge_winner (ps : Players) (actor challenger : PlayerId)
    (claim : Card) : Option PlayerId :=
  (ps.has_card actor claim).map (fun h => if h then challenger else actor)

/-- Players::get_coins_for from players.rs. -/
def Players.get_coins_for (ps : Players) (actor : PlayerId) : Option Nat :=
  (ps.alive actor).map (fun p => p.coins)

/-- Players::set_coins_for from players.rs. -/
def Players.set_coins_for (ps : Players) (actor : PlayerId) (c : Nat) :
    Option Players :=
  match ps.alive actor with
  | none => none
  | some p =>
    some { ps with alive := fun id =>
      if id = actor then some { p with coins := c } else ps.alive id }

/-- Players::hand_for from players.rs. -/
def Players.hand_for (ps : Players) (actor : PlayerId) : Option Hand :=
  (ps.alive actor).map (fun p => p.hand)

/-- Players::exchange from players.rs: replace the hand of an alive seat. -/
def Players.exchange (ps : Players) (actor : PlayerId) (hand : Hand) :
    Option Players :=
  match ps.alive actor with
  | none => none
  | some p =>
    some { ps with alive := fun id =>
      if id = actor then some { p with hand := hand } else ps.alive id }

/-- Players::all_but from players.rs lines 191-202: alive ids except the
actor, in iteration order. -/
def Players.all_but (ps : Players) (actor : PlayerId) : List PlayerId :=
  ps.aliveIds.filter (fun id => id ≠ actor)

/-- PossibleChallenges from action.rs. -/
structure PossibleChallenges where
  challenges : List (PlayerId × Challenge)
deriving DecidableEq, Repr

/-- PossibleBlocks from action.rs. -/
structure PossibleBlocks where
  blocks : List (PlayerId × Block)
deriving DecidableEq, Repr

/-- PossibleReactions from action.rs. -/
structure PossibleReactions where
  block : Blocks
  challenge : List (PlayerId × Challenge)
deriving DecidableEq, Repr

/-- PossibleActions from action.rs. -/
structure PossibleActions where
  current_player : PlayerId
  assassinations : List Action
  coups : List Action
  steal : List Action
  basic : List Action
deriving DecidableEq, Repr

/-- The four always-offered basic acts, players.rs BASIC_ACTS. -/
def BASIC_ACTS : List Act := [Act.ForeignAid, Act.Income, Act.Tax, Act.Exchange]

/-- Players::generate_challenges_against from players.rs lines 204-218. -/
def Players.generate_challenges_against (ps : Players) (actor : PlayerId)
    (action : ChallengeableAct) : PossibleChallenges :=
  { challenges := (ps.all_but actor).map
      (fun id => (id, { actor := actor, challenger := id, kind := action })) }

/-- Players::generate_blocks_against from players.rs lines 220-229. -/
def Players.generate_blocks_against (ps : Players) (actor : PlayerId) :
    PossibleBlocks :=
  { blocks := (ps.all_but actor).map
      (fun id => (id, { actor := actor, blocker := id,
                        kind := BlockableAct.ForeignAid })) }

/-- Players::generate_reactions_against from players.rs lines 231-273. -/
def Players.generate_reactions_against (ps : Players) (actor : PlayerId)
    (action : ReactableAct) : PossibleReactions :=
  let challenges := (ps.all_but actor).map
    (fun id => (id, { actor := actor, challenger := id,
                      kind := action.toChallengeable : Challenge }))
  let blocks :=
    match action with
    | ReactableAct.Assassinate victim =>
      Blocks.Other { actor := actor, blocker := victim,
                     kind := BlockableAct.Assassinate victim }
    | ReactableAct.Steal victim =>
      Blocks.Steal
        { actor := actor, blocker := victim,
          kind := BlockableAct.Steal victim BlockStealClaim.Ambassador }
        { actor := actor, blocker := victim,
          kind := BlockableAct.Steal victim BlockStealClaim.Captain }
  { block := blocks, challenge := challenges }

/-- Players::generate_actions_for from players.rs lines 275-300 (none when
the actor is not alive, an indexing panic in the source).  Note that the
four basic acts are offered unconditionally: there is no forced-coup branch
for an actor holding 10 or more coins. -/
def Players.generate_actions_for (ps : Players) (player_id : PlayerId) :
    Option PossibleActions :=
  match ps.alive player_id with
  | none => none
  | some actor =>
    let others := ps.aliveIds.filter (fun id => id ≠ player_id)
    let assassination_vics :=
      others.take (if actor.can_assasinate then ps.aliveIds.length else 0)
    let coup_vics :=
      others.take (if actor.can_coup then ps.aliveIds.length else 0)
    let steal_vics := ps.aliveIds.filter (fun id =>
      (match ps.alive id with
       | some p => p.can_steal_from
       | none => false) && id ≠ player_id)
    some
      { current_player := player_id
        assassinations := assassination_vics.map
          (fun v => { actor := player_id, kind := Act.Assassinate v })
        coups := coup_vics.map
          (fun v => { actor := player_id, kind := Act.Coup v })
        steal := steal_vics.map
          (fun v => { actor := player_id, kind := Act.Steal v })
        basic := BASIC_ACTS.map (fun a => { actor := player_id, kind := a }) }

/-- Players::is_game_over from players.rs lines 335-338. -/
def Players.is_game_over (ps : Players) : Bool := ps.aliveIds.length = 1

/-- Players::current_player accessor from players.rs. -/
def Players.current (ps : Players) : PlayerId := ps.current_player.current

/-- Players::end_turn from players.rs lines 352-354. -/
def Players.end_turn (ps : Players) : Option Players :=
  match ps.current_player.end_turn with
  | none => none
  | some cp => some { ps with current_player := cp }

/-- Players::kill from players.rs lines 362-388: remove an alive seat on
its last card, reveal both cards, and return the coins it held. -/
def Players.kill (ps : Players) (id : PlayerId) : Option (Nat × Players) :=
  match ps.alive id with
  | none => none
  | some p =>
    match p.hand with
    | Hand.Full _ _ => none
    | Hand.Last c1 c2 =>
      match ps.dead id with
      | some _ => none
      | none =>
        match ps.current_player.kill id with
        | none => none
        | some cp =>
          some (p.coins,
            { alive := fun j => if j = id then none else ps.alive j
              dead := fun j =>
                if j = id then
                  some { name := p.name,
                         hand := { d1 := { card := c1 }, d2 := c2 } }
                else ps.dead j
              current_player := cp })

/-- Deck draw of a single card: Vec::pop takes the last element. -/
def Deck.pop (deck : List Card) : Option (Card × List Card) :=
  match deck.getLast? with
  | none => none
  | some c => some (c, deck.dropLast)

/-- Deck::draw_two from deck.rs lines 122-124. -/
def Deck.draw_two (deck : List Card) : Option (Card × Card × List Card) :=
  match Deck.pop deck with
  | none => none
  | some (c1, d1) =>
    match Deck.pop d1 with
    | none => none
    | some (c2, d2) => some (c1, c2, d2)

/-- Deck::return_cards from deck.rs lines 126-129 (the trailing shuffle is
modelled as the identity permutation). -/
def Deck.return_cards (deck : List Card) (cards : List Card) : List Card :=
  deck ++ cards

/-- Pairing of drained cards into Full hands, deck.rs array_chunks. -/
def Deck.chunk2 : List Card → List Hand
  | c1 :: c2 :: rest => Hand.Full c1 c2 :: Deck.chunk2 rest
  | _ => []

/-- Deck::with_count from deck.rs lines 98-111, taking the shuffled deck
order as a parameter: the last two times player_count cards are drained
off the end and paired into hands. -/
def Deck.with_count (shuffled : List Card) (player_count : Nat) :
    List Card × List Hand :=
  let cards_left := shuffled.length - 2 * player_count
  (shuffled.take cards_left, Deck.chunk2 (shuffled.drop cards_left))

/-- CoupData from machine.rs: players, pile and deck. -/
structure CoupData where
  players : Players
  coins : Nat
  deck : List Card

/-- The typestate phases of machine.rs, encoded as a tagged union whose
variant carries the data of the corresponding state struct. -/
inductive Phase where
  | Wait (possible_actions : PossibleActions)
  | Safe (actor : PlayerId) (kind : SafeAct)
  | OnlyChallengeable (possible_challenges : PossibleChallenges)
      (actor : PlayerId) (kind : OnlyChallengeableAct)
  | OnlyBlockable (possible_blocks : PossibleBlocks) (actor : PlayerId)
  | Reactable (possible_reactions : PossibleReactions)
      (actor : PlayerId) (kind : ReactableAct)
  | ChooseVictimCard (victim : PlayerId) (choice1 choice2 : Card)
  | ChooseOneFromThree (actor : PlayerId) (choice1 choice2 choice3 : Card)
  | ChooseTwoFromFour (actor : PlayerId)
      (choice1 choice2 choice3 choice4 : Card)
  | Challenge (actor challenger : PlayerId) (kind : ChallengeableAct)
  | Block (possible_challenges : PossibleChallenges)
      (actor blocker : PlayerId) (kind : BlockableAct)
  | End

/-- A game: the shared data plus the current phase. -/
structure Game where
  data : CoupData
  phase : Phase

/-- CoupGame::end_turn from machine.rs lines 313-321: advance the cursor
and regenerate the possible actions of the new current player. -/
def CoupGame.end_turn (d : CoupData) : Option Game :=
  match d.players.end_turn with
  | none => none
  | some players =>
    match players.generate_actions_for players.current with
    | none => none
    | some pa =>
      some { data := { d with players := players }, phase := Phase.Wait pa }

/-- CoupGame::kill from machine.rs lines 262-276: kill the victim, return
its coins to the pile, then End when one seat remains, else end the turn. -/
def CoupGame.kill (d : CoupData) (victim : PlayerId) : Option Game :=
  match d.players.kill victim with
  | none => none
  | some (player_coins, players) =>
    let d := { d with players := players, coins := d.coins + player_coins }
    if players.is_game_over then some { data := d, phase := Phase.End }
    else CoupGame.end_turn d

/-- CoupGame::lose_influence from machine.rs lines 278-290. -/
def CoupGame.lose_influence (d : CoupData) (victim : PlayerId) :
    Option Game :=
  match d.players.hand_for victim with
  | none => none
  | some (Hand.Full c1 c2) =>
    some { data := d, phase := Phase.ChooseVictimCard victim c1 c2 }
  | some (Hand.Last _ _) => CoupGame.kill d victim

/-- CoupGame::withdraw from machine.rs lines 292-301. -/
def CoupGame.withdraw (d : CoupData) (w : Withdrawal) (actor : PlayerId) :
    Option Game :=
  match d.players.get_coins_for actor with
  | none => none
  | some coins =>
    match CoinPile.withdraw d.coins w coins with
    | none => none
    | some (pile, coins) =>
      match d.players.set_coins_for actor coins with
      | none => none
      | some players =>
        CoupGame.end_turn { d with players := players, coins := pile }

/-- CoupGame::spend from machine.rs lines 303-311. -/
def CoupGame.spend (d : CoupData) (dep : Deposit) (actor : PlayerId) :
    Option CoupData :=
  match d.players.get_coins_for actor with
  | none => none
  | some coins =>
    match CoinPile.spend d.coins dep coins with
    | none => none
    | some (pile, coins) =>
      match d.players.set_coins_for actor coins with
      | none => none
      | some players => some { d with players := players, coins := pile }

/-- CoupGame::transition_to_block from machine.rs lines 330-354: enter the
Block phase and generate the challenges against the blocker. -/
def CoupGame.transition_to_block (d : CoupData) (block : Block) : Game :=
  let action :=
    match block.kind with
    | BlockableAct.ForeignAid => ChallengeableAct.BlockForeignAid
    | BlockableAct.Assassinate _ => ChallengeableAct.BlockAssassination
    | BlockableAct.Steal _ claim => ChallengeableAct.BlockSteal claim
  let possible_challenges :=
    d.players.generate_challenges_against block.blocker action
  { data := d,
    phase := Phase.Block possible_challenges block.actor block.blocker
      block.kind }

/-- Wait::play from game.rs lines 82-140: dispatch the declared action to
its phase.  The data is untouched; only prompts are generated. -/
def WaitState.play (d : CoupData) (action : Action) : Game :=
  match action.kind with
  | Act.Assassinate victim =>
    let kind := ReactableAct.Assassinate victim
    { data := d,
      phase := Phase.Reactable
        (d.players.generate_reactions_against action.actor kind)
        action.actor kind }
  | Act.Income => { data := d, phase := Phase.Safe action.actor SafeAct.Income }
  | Act.Coup victim =>
    { data := d, phase := Phase.Safe action.actor (SafeAct.Coup victim) }
  | Act.Exchange =>
    let kind := OnlyChallengeableAct.Exchange
    { data := d,
      phase := Phase.OnlyChallengeable
        (d.players.generate_challenges_against action.actor
          kind.toChallengeable)
        action.actor kind }
  | Act.ForeignAid =>
    { data := d,
      phase := Phase.OnlyBlockable
        (d.players.generate_blocks_against action.actor) action.actor }
  | Act.Steal victim =>
    let kind := ReactableAct.Steal victim
    { data := d,
      phase := Phase.Reactable
        (d.players.generate_reactions_against action.actor kind)
        action.actor kind }
  | Act.Tax =>
    let kind := OnlyChallengeableAct.Tax
    { data := d,
      phase := Phase.OnlyChallengeable
        (d.players.generate_challenges_against action.actor
          kind.toChallengeable)
        action.actor kind }

/-- Safe::advance from game.rs lines 212-223. -/
def SafeState.advance (d : CoupData) (actor : PlayerId) (kind : SafeAct) :
    Option Game :=
  match kind with
  | SafeAct.Income => CoupGame.withdraw d Withdrawal.Income actor
  | SafeAct.Coup victim =>
    match CoupGame.spend d Deposit.Coup actor with
    | none => none
    | some d => CoupGame.lose_influence d victim

/-- OnlyChallengeable::advance from game.rs lines 261-288: Exchange draws
two cards and presents four or three choices; Tax withdraws three coins.
No challenge happened on this path. -/
def OnlyChallengeableState.advance (d : CoupData) (actor : PlayerId)
    (kind : OnlyChallengeableAct) : Option Game :=
  match kind with
  | OnlyChallengeableAct.Exchange =>
    match d.players.hand_for actor with
    | none => none
    | some hand =>
      match Deck.draw_two d.deck with
      | none => none
      | some (c1, c2, deck) =>
        let d := { d with deck := deck }
        match hand with
        | Hand.Full c3 c4 =>
          some { data := d, phase := Phase.ChooseTwoFromFour actor c1 c2 c3 c4 }
        | Hand.Last c3 _ =>
          some { data := d, phase := Phase.ChooseOneFromThree actor c1 c2 c3 }
  | OnlyChallengeableAct.Tax => CoupGame.withdraw d Withdrawal.Tax actor

/-- OnlyBlockable::advance from game.rs lines 307-310. -/
def OnlyBlockableState.advance (d : CoupData) (actor : PlayerId) :
    Option Game :=
  CoupGame.withdraw d Withdrawal.ForeignAid actor

/-- Reactable::advance from game.rs lines 179-198: the unopposed action
resolves. -/
def ReactableState.advance (d : CoupData) (actor : PlayerId)
    (kind : ReactableAct) : Option Game :=
  match kind with
  | ReactableAct.Assassinate victim =>
    match CoupGame.spend d Deposit.Assassinate actor with
    | none => none
    | some d => CoupGame.lose_influence d victim
  | ReactableAct.Steal victim =>
    match d.players.get_coins_for victim with
    | none => none
    | some victim_coins =>
      match d.players.get_coins_for actor with
      | none => none
      | some actor_coins =>
        match PlayerCoins.steal victim_coins actor_coins with
        | none => none
        | some (victim_coins, actor_coins) =>
          match d.players.set_coins_for victim victim_coins with
          | none => none
          | some players =>
            match players.set_coins_for actor actor_coins with
            | none => none
            | some players => CoupGame.end_turn { d with players := players }

/-- Challenge::advance from game.rs lines 429-438: the loser as computed by
challenge_winner loses influence.  Nothing else happens: no card is shuffled
back, no replacement card is drawn, and the challenged action is dropped. -/
def ChallengeState.advance (d : CoupData) (actor challenger : PlayerId)
    (kind : ChallengeableAct) : Option Game :=
  match d.players.challenge_winner actor challenger kind.toCard with
  | none => none
  | some victim => CoupGame.lose_influence d victim

/-- Block::advance from game.rs lines 478-486: a successful block; the
assassination cost is still paid. -/
def BlockState.advance (d : CoupData) (actor : PlayerId)
    (kind : BlockableAct) : Option Game :=
  match kind with
  | BlockableAct.Assassinate _ =>
    match CoupGame.spend d Deposit.Assassinate actor with
    | none => none
    | some d => CoupGame.end_turn d
  | _ => CoupGame.end_turn d

/-- ChooseVictimCard::advance from game.rs lines 318-336. -/
def ChooseVictimCardState.advance (d : CoupData) (victim : PlayerId)
    (choice : Card) : Option Game :=
  match d.players.hand_for victim with
  | some (Hand.Full c1 c2) =>
    let remaining_card :=
      if c1 = choice then some c2
      else if c2 = choice then some c1
      else none
    match remaining_card with
    | none => none
    | some rem =>
      match d.players.exchange victim (Hand.Last rem { card := choice }) with
      | none => none
      | some players => CoupGame.end_turn { d with players := players }
  | _ => none

/-- ChooseOneFromThree::advance from game.rs lines 344-373. -/
def ChooseOneFromThreeState.advance (d : CoupData) (actor : PlayerId)
    (choice1 choice2 choice3 : Card) (choice : Card) : Option Game :=
  let choices := [choice1, choice2, choice3]
  match choices.findIdx? (fun c => c = choice) with
  | none => none
  | some index =>
    match d.players.hand_for actor with
    | some (Hand.Last _ dead) =>
      match d.players.exchange actor (Hand.Last choice dead) with
      | none => none
      | some players =>
        let other_cards := (choices.enum.filter
          (fun ic => ic.1 ≠ index)).map (fun ic => ic.2)
        if other_cards.length = 2 then
          CoupGame.end_turn
            { d with players := players,
                     deck := Deck.return_cards d.deck other_cards }
        else none
    | _ => none

/-- Rust Option::or. -/
def optOr (a b : Option Nat) : Option Nat :=
  match a with
  | some x => some x
  | none => b

/-- Rust Option::and. -/
def optAnd (a b : Option Nat) : Option Nat :=
  match a with
  | some _ => b
  | none => none

/-- Rust Option::xor. -/
def optXor (a b : Option Nat) : Option Nat :=
  match a, b with
  | some x, none => some x
  | none, some y => some y
  | _, _ => none

/-- Index-assignment fold of ChooseTwoFromFour::advance, game.rs lines
387-397 (the helper the spec calls match_to_indices): the first component
collects the first index matching the first chosen card, the second
component the first index matching the second chosen card that was not
simultaneously consumed by the first. -/
def match_to_indices (c1 c2 : Card) (choices : List Card) :
    Option Nat × Option Nat :=
  choices.enum.foldl
    (fun acc ic =>
      let index := ic.1
      let card := ic.2
      let c1_index := if c1 = card ∧ acc.1 = none then some index else none
      let c2_index := if c2 = card then some index else none
      let c1_xor_c2 := optXor c1_index c2_index
      (optOr acc.1 c1_index, optOr acc.2 (optAnd c1_xor_c2 c2_index)))
    (none, none)

/-- ChooseTwoFromFour::advance from game.rs lines 376-415: keep the chosen
pair when both indices match, return the remaining two cards to the deck. -/
def ChooseTwoFromFourState.advance (d : CoupData) (actor : PlayerId)
    (choice1 choice2 choice3 choice4 : Card) (c1 c2 : Card) : Option Game :=
  let choices := [choice1, choice2, choice3, choice4]
  match match_to_indices c1 c2 choices with
  | (some i1, some i2) =>
    match d.players.exchange actor (Hand.Full c1 c2) with
    | none => none
    | some players =>
      let remaining_cards := (choices.enum.filter
        (fun ic => ic.1 ≠ i1 && ic.1 ≠ i2)).map (fun ic => ic.2)
      if remaining_cards.length = 2 then
        CoupGame.end_turn
          { d with players := players,
                   deck := Deck.return_cards d.deck remaining_cards }
      else none
  | _ => none

/-- Inputs a phase transition can consume. -/
inductive Input where
  | play (a : Action)
  | advance
  | advanceCard (c : Card)
  | advanceTwo (c1 c2 : Card)
  | challenge (c : Challenge)
  | block (b : Block)

/-- One engine transition: the per-phase methods of machine.rs dispatched
on the phase and the input; a none is an input the phase does not accept
or a panic inside the source transition. -/
def step (g : Game) (i : Input) : Option Game :=
  match g.phase, i with
  | Phase.Wait _, Input.play a => some (WaitState.play g.data a)
  | Phase.Safe actor kind, Input.advance => SafeState.advance g.data actor kind
  | Phase.OnlyChallengeable _ actor kind, Input.advance =>
    OnlyChallengeableState.advance g.data actor kind
  | Phase.OnlyChallengeable _ _ _, Input.challenge ch =>
    some { data := g.data,
           phase := Phase.Challenge ch.actor ch.challenger ch.kind }
  | Phase.OnlyBlockable _ actor, Input.advance =>
    OnlyBlockableState.advance g.data actor
  | Phase.OnlyBlockable _ _, Input.block b =>
    some (CoupGame.transition_to_block g.data b)
  | Phase.Reactable _ actor kind, Input.advance =>
    ReactableState.advance g.data actor kind
  | Phase.Reactable _ _ _, Input.challenge ch =>
    some { data := g.data,
           phase := Phase.Challenge ch.actor ch.challenger ch.kind }
  | Phase.Reactable _ _ _, Input.block b =>
    some (CoupGame.transition_to_block g.data b)
  | Phase.Block _ actor _ kind, Input.advance =>
    BlockState.advance g.data actor kind
  | Phase.Block _ _ _ _, Input.challenge ch =>
    some { data := g.data,
           phase := Phase.Challenge ch.actor ch.challenger ch.kind }
  | Phase.Challenge actor challenger kind, Input.advance =>
    ChallengeState.advance g.data actor challenger kind
  | Phase.ChooseVictimCard victim _ _, Input.advanceCard c =>
    ChooseVictimCardState.advance g.data victim c
  | Phase.ChooseOneFromThree actor a b c, Input.advanceCard choice =>
    ChooseOneFromThreeState.advance g.data actor a b c choice
  | Phase.ChooseTwoFromFour actor a b c d4, Input.advanceTwo c1 c2 =>
    ChooseTwoFromFourState.advance g.data actor a b c d4 c1 c2
  | _, _ => none

/-- Wait::with_players from game.rs lines 43-67, taking the shuffled deck
order as a parameter. -/
def CoupGame.with_players (rp : RawPlayers) (shuffled_deck : List Card) :
    Option Game :=
  let dealt := Deck.with_count shuffled_deck rp.count
  let pileInit := CoinPile.with_count rp.count
  let data := (rp.names.zip (pileInit.2.zip dealt.2)).map
    (fun e => { name := e.1, coins := e.2.1, hand := e.2.2 : Player })
  match Players.with_players (PlayerId.iter.zip data) with
  | none => none
  | some players =>
    match players.generate_actions_for players.current with
    | none => none
    | some pa =>
      some { data := { players := players, coins := pileInit.1,
                       deck := dealt.1 },
             phase := Phase.Wait pa }

/-- Coin contribution of one seat of the alive map. -/
def coinOfOpt : Option Player → Nat
  | none => 0
  | some p => p.coins

/-- Indicator of an occupied seat. -/
def aliveInd : Option Player → Nat
  | none => 0
  | some _ => 1

/-- Indicator of a dead seat. -/
def deadInd : Option DeadPlayer → Nat
  | none => 0
  | some _ => 1

/-- Total coins held by alive players. -/
def Players.coinSum (ps : Players) : Nat :=
  (PlayerId.iter.map (fun id => coinOfOpt (ps.alive id))).sum

/-- Number of alive seats. -/
def Players.aliveCount (ps : Players) : Nat :=
  (PlayerId.iter.map (fun id => aliveInd (ps.alive id))).sum

/-- Number of dead seats. -/
def Players.deadCount (ps : Players) : Nat :=
  (PlayerId.iter.map (fun id => deadInd (ps.dead id))).sum

/-- Cards held inside the phase payload itself: the two drawn cards that a
pending exchange has taken out of the deck while the hand still holds its
old cards. -/
def Phase.inFlight : Phase → Nat
  | Phase.ChooseOneFromThree _ _ _ _ => 2
  | Phase.ChooseTwoFromFour _ _ _ _ _ => 2
  | _ => 0

/-- Coin conservation expression: pile plus alive coins. -/
def coinTotal (g : Game) : Nat := g.data.coins + g.data.players.coinSum

/-- Card conservation expression: deck, two cards per alive hand (one of a
Last hand being the revealed card), two revealed cards per dead seat, and
the in-flight cards of a pending exchange. -/
def cardTotal (g : Game) : Nat :=
  g.data.deck.length + 2 * g.data.players.aliveCount +
    2 * g.data.players.deadCount + g.phase.inFlight

/-- Card conservation expression exactly as the claim words it: deck plus
cards in alive hands plus revealed cards of dead seats, with no account of
the in-flight exchange cards. -/
def plainCardTotal (g : Game) : Nat :=
  g.data.deck.length + 2 * g.data.players.aliveCount +
    2 * g.data.players.deadCount

/-- Sequencing helper for concrete traces. -/
def run (g : Option Game) (i : Input) : Option Game :=
  g.bind (fun g => step g i)

/-- Projection: coins of a seat. -/
def coinsOf (g : Option Game) (id : PlayerId) : Option Nat :=
  g.bind (fun g => g.data.players.get_coins_for id)

/-- Projection: hand of a seat. -/
def handOf (g : Option Game) (id : PlayerId) : Option Hand :=
  g.bind (fun g => g.data.players.hand_for id)

/-- Projection: pile size. -/
def pileOf (g : Option Game) : Option Nat :=
  g.map (fun g => g.data.coins)

/-- Projection: deck size. -/
def deckSizeOf (g : Option Game) : Option Nat :=
  g.map (fun g => g.data.deck.length)

/-- Projection: current player. -/
def currentOf (g : Option Game) : Option PlayerId :=
  g.map (fun g => g.data.players.current)

/-- Projection: is the seat alive. -/
def isAliveIn (g : Option Game) (id : PlayerId) : Option Bool :=
  g.map (fun g => (g.data.players.alive id).isSome)

/-- Discriminant of a phase, for stating which phase a trace reached. -/
inductive PhaseTag where
  | Wait
  | Safe
  | OnlyChallengeable
  | OnlyBlockable
  | Reactable
  | ChooseVictimCard
  | ChooseOneFromThree
  | ChooseTwoFromFour
  | Challenge
  | Block
  | End
deriving DecidableEq, Repr

/-- Tag of a phase. -/
def Phase.tag : Phase → PhaseTag
  | Phase.Wait _ => PhaseTag.Wait
  | Phase.Safe _ _ => PhaseTag.Safe
  | Phase.OnlyChallengeable _ _ _ => PhaseTag.OnlyChallengeable
  | Phase.OnlyBlockable _ _ => PhaseTag.OnlyBlockable
  | Phase.Reactable _ _ _ => PhaseTag.Reactable
  | Phase.ChooseVictimCard _ _ _ => PhaseTag.ChooseVictimCard
  | Phase.ChooseOneFromThree _ _ _ _ => PhaseTag.ChooseOneFromThree
  | Phase.ChooseTwoFromFour _ _ _ _ _ => PhaseTag.ChooseTwoFromFour
  | Phase.Challenge _ _ _ => PhaseTag.Challenge
  | Phase.Block _ _ _ _ => PhaseTag.Block
  | Phase.End => PhaseTag.End

/-- Projection: phase tag. -/
def tagOf (g : Option Game) : Option PhaseTag :=
  g.map (fun g => g.phase.tag)

/-- Projection: plain three-term card total. -/
def plainCardTotalOf (g : Option Game) : Option Nat :=
  g.map plainCardTotal

/-- Projection: pile plus alive coins. -/
def coinTotalOf (g : Option Game) : Option Nat :=
  g.map coinTotal

/-- Events a reaction window of the coordinator can resolve with, for the
foreign-aid window of overthrow-server/src/game.rs handle_blockable
(lines 400-441): the select races the block receivers against the
collective pass (a deadline expiry is a synthetic collective pass). -/
inductive BlockWindowEvent where
  | block (b : Block)
  | allPass

/-- Coordinator branch structure of handle_blockable from
overthrow-server/src/game.rs lines 400-441: on a block event the source
runs game.block(block) followed immediately by game.advance() (the FIXME
notes that challenging the block is not handled), so the block is applied
in the same step; on unanimous pass the foreign aid resolves. -/
def handle_blockable (d : CoupData) (actor : PlayerId) :
    BlockWindowEvent → Option Game
  | BlockWindowEvent.block b =>
    let g := CoupGame.transition_to_block d b
    BlockState.advance g.data b.actor b.kind
  | BlockWindowEvent.allPass => OnlyBlockableState.advance d actor

/-- Events the reactable window of handle_reactable can resolve with. -/
inductive ReactWindowEvent where
  | block (b : Block)
  | challenge (c : Challenge)
  | allPass

/-- Coordinator branch structure of handle_reactable from
overthrow-server/src/game.rs lines 340-398: a block event is applied
immediately (game.block then game.advance, with the same FIXME), a
challenge event resolves deterministically, unanimous pass lets the
action resolve. -/
def handle_reactable (d : CoupData) (actor : PlayerId) (kind : ReactableAct) :
    ReactWindowEvent → Option Game
  | ReactWindowEvent.block b =>
    let g := CoupGame.transition_to_block d b
    BlockState.advance g.data b.actor b.kind
  | ReactWindowEvent.challenge c =>
    ChallengeState.advance d c.actor c.challenger c.kind
  | ReactWindowEvent.allPass => ReactableState.advance d actor kind

/-- A game state carries no pending self-targeting steal.  The engine
itself never generates a steal whose victim is its actor, and the client
session only relays actions from the offered set, so every reachable
Reactable phase satisfies this. -/
def StealSafe (g : Game) : Prop :=
  match g.phase with
  | Phase.Reactable _ actor (ReactableAct.Steal victim) => victim ≠ actor
  | _ => True

/-- An input the client session could actually relay: a played steal never
targets its own actor (the offered action set is generated with the filter
id ≠ actor and the session validates membership). -/
def LegalInput : Input → Prop
  | Input.play a =>
    match a.kind with
    | Act.Steal victim => victim ≠ a.actor
    | _ => True
  | _ => True

/-- Projection: the cursor position directly after Players::kill, before
the extra end_turn of CoupGame::kill runs. -/
def killCursorOf (g : Option Game) (id : PlayerId) : Option PlayerId :=
  g.bind (fun g => (g.data.players.kill id).map (fun r => r.2.current))

/-- Projection: set of steal actions offered in a Wait phase. -/
def stealChoicesOf (g : Option Game) : Option (List Action) :=
  g.bind (fun g =>
    match g.phase with
    | Phase.Wait pa => some pa.steal
    | _ => none)

/-- Projection: set of basic actions offered in a Wait phase. -/
def basicChoicesOf (g : Option Game) : Option (List Action) :=
  g.bind (fun g =>
    match g.phase with
    | Phase.Wait pa => some pa.basic
    | _ => none)

/-- A concrete shuffled deck: seat One is dealt Duke and Contessa, seat
Two two Captains (with_count drains the four last cards into hands). -/
def deckC1 : List Card :=
  [Card.Ambassador, Card.Ambassador, Card.Ambassador,
   Card.Assassin, Card.Assassin, Card.Assassin,
   Card.Captain, Card.Contessa, Card.Contessa, Card.Duke, Card.Duke,
   Card.Duke, Card.Contessa, Card.Captain, Card.Captain]

/-- The two player game of the end-to-end scenarios of the spec. -/
def rp2 : RawPlayers := { names := ["Dave", "Garry"], count := 2 }

/-- Initial state: Dave (seat One) holds Duke and Contessa, Garry (seat
Two) holds two Captains; pile 46, deck 11 cards. -/
def g0 : Option Game := CoupGame.with_players rp2 deckC1

/-- Scenario 3 of the spec: Dave plays Tax holding Duke, Garry challenges,
the defense succeeds and the engine resolves the challenge. -/
def c1t : Option Game :=
  run (run (run g0 (Input.play { actor := PlayerId.One, kind := Act.Tax }))
    (Input.challenge { actor := PlayerId.One, challenger := PlayerId.Two,
                       kind := ChallengeableAct.Tax }))
    Input.advance

/-- Continuation towards a death: Garry reveals a Captain, then plays Tax
without a Duke, Dave challenges and Garry is eliminated holding 2 coins. -/
def c6t : Option Game :=
  run (run (run (run c1t (Input.advanceCard Card.Captain))
    (Input.play { actor := PlayerId.Two, kind := Act.Tax }))
    (Input.challenge { actor := PlayerId.Two, challenger := PlayerId.One,
                       kind := ChallengeableAct.Tax }))
    Input.advance

/-- From the initial state: Dave plays Exchange, nobody challenges, the
engine draws two cards and presents four choices. -/
def c7t : Option Game :=
  run (run g0 (Input.play { actor := PlayerId.One, kind := Act.Exchange }))
    Input.advance

/-- A concrete three seat mid game state: seat One (current, 2 coins) is
down to a hidden Assassin after revealing an Ambassador, seats Two and
Three hold full hands and 3 coins each; One has claimed Tax and seat Two
has challenged.  Card multiset and coin total match a reachable game
(9 deck cards + 6 held = 15, 42 + 2 + 3 + 3 = 50). -/
def dC5 : CoupData :=
  { players :=
      { alive := fun id =>
          if id = PlayerId.One then
            some { name := "A", coins := 2,
                   hand := Hand.Last Card.Assassin
                     { card := Card.Ambassador } }
          else if id = PlayerId.Two then
            some { name := "B", coins := 3,
                   hand := Hand.Full Card.Captain Card.Captain }
          else if id = PlayerId.Three then
            some { name := "C", coins := 3,
                   hand := Hand.Full Card.Contessa Card.Contessa }
          else none
        dead := fun _ => none
        current_player :=
          { order := fun id =>
              if id = PlayerId.One then some (PlayerId.Three, PlayerId.Two)
              else if id = PlayerId.Two then
                some (PlayerId.One, PlayerId.Three)
              else if id = PlayerId.Three then
                some (PlayerId.Two, PlayerId.One)
              else none
            current_player := PlayerId.One } }
    coins := 42
    deck := [Card.Ambassador, Card.Ambassador, Card.Assassin,
             Card.Assassin, Card.Captain, Card.Contessa,
             Card.Duke, Card.Duke, Card.Duke] }

/-- The pending challenge of seat One by seat Two over the Tax claim. -/
def c5pre : Option Game :=
  some { data := dC5,
         phase := Phase.Challenge PlayerId.One PlayerId.Two
           ChallengeableAct.Tax }

/-- Resolving the challenge: One lacks the Duke, loses its last influence
while being the current actor, and the machine kills it. -/
def c5t : Option Game := c5pre.bind (fun g => step g Input.advance)

/-- Two alive seats where seat Two holds exactly 1 coin. -/
def psOneCoin : Option Players :=
  Players.with_players
    [(PlayerId.One,
      { name := "Dave", coins := 2,
        hand := Hand.Full Card.Duke Card.Contessa }),
     (PlayerId.Two,
      { name := "Garry", coins := 1,
        hand := Hand.Full Card.Captain Card.Captain })]

/-- Two alive seats where seat One holds 10 coins. -/
def psTenCoins : Option Players :=
  Players.with_players
    [(PlayerId.One,
      { name := "Dave", coins := 10,
        hand := Hand.Full Card.Duke Card.Contessa }),
     (PlayerId.Two,
      { name := "Garry", coins := 2,
        hand := Hand.Full Card.Captain Card.Captain })]

/-- Action choices generated for seat One against a 1-coin seat Two. -/
def actionsOneCoin : Option PossibleActions :=
  psOneCoin.bind (fun ps => ps.generate_actions_for PlayerId.One)

/-- Action choices generated for seat One holding 10 coins. -/
def actionsTenCoins : Option PossibleActions :=
  psTenCoins.bind (fun ps => ps.generate_actions_for PlayerId.One)

/-- Dave declares ForeignAid from the initial two player state. -/
def c9state : Option Game :=
  run g0 (Input.play { actor := PlayerId.One, kind := Act.ForeignAid })

/-- The foreign aid block Garry declares. -/
def c9block : Block :=
  { actor := PlayerId.One, blocker := PlayerId.Two,
    kind := BlockableAct.ForeignAid }

/-- Coordinator outcome when Garry blocks the foreign aid: the embedded
handle_blockable branch applied to the block event. -/
def c9afterBlock : Option Game :=
  c9state.bind (fun g =>
    match g.phase with
    | Phase.OnlyBlockable _ actor =>
      handle_blockable g.data actor (BlockWindowEvent.block c9block)
    | _ => none)

/-- Challenge prompts the engine would have generated against the blocker,
had the coordinator entered the Block phase instead of applying it. -/
def c9skippedChallenges : Option (List (PlayerId × Challenge)) :=
  c9state.map (fun g =>
    (CoupGame.transition_to_block g.data c9block).data.players.generate_challenges_against
      PlayerId.Two ChallengeableAct.BlockForeignAid |>.challenges)

/-- Dave steals from Garry and Garry blocks claiming Ambassador. -/
def c9stealState : Option Game :=
  run g0 (Input.play { actor := PlayerId.One,
                       kind := Act.Steal PlayerId.Two })

/-- The steal block Garry declares. -/
def c9stealBlock : Block :=
  { actor := PlayerId.One, blocker := PlayerId.Two,
    kind := BlockableAct.Steal PlayerId.Two BlockStealClaim.Ambassador }

/-- Coordinator outcome when Garry blocks the steal. -/
def c9afterStealBlock : Option Game :=
  c9stealState.bind (fun g =>
    match g.phase with
    | Phase.Reactable _ actor kind =>
      handle_reactable g.data actor kind (ReactWindowEvent.block c9stealBlock)
    | _ => none)

/-- A concrete ChooseTwoFromFour data value used to witness the deck
growth lemma: seat One mid-exchange. -/
def dW : CoupData :=
  { players :=
      { alive := fun id =>
          if id = PlayerId.One then
            some { name := "Dave", coins := 2,
                   hand := Hand.Full Card.Duke Card.Contessa }
          else if id = PlayerId.Two then
            some { name := "Garry", coins := 2,
                   hand := Hand.Full Card.Captain Card.Captain }
          else none
        dead := fun _ => none
        current_player :=
          { order := fun id =>
              if id = PlayerId.One then some (PlayerId.Two, PlayerId.Two)
              else if id = PlayerId.Two then
                some (PlayerId.One, PlayerId.One)
              else none
            current_player := PlayerId.One } }
    coins := 46
    deck := [Card.Assassin, Card.Assassin, Card.Assassin,
             Card.Ambassador, Card.Ambassador, Card.Ambassador,
             Card.Contessa, Card.Contessa, Card.Duke]
  }

/-- The Challenge state just before Garry dies: Garry holds 2 coins. -/
def c6preKill : Option Game :=
  run (run (run c1t (Input.advanceCard Card.Captain))
    (Input.play { actor := PlayerId.Two, kind := Act.Tax }))
    (Input.challenge { actor := PlayerId.Two, challenger := PlayerId.One,
                       kind := ChallengeableAct.Tax })

/-- C10: For every list of names, RawPlayers::with_names returns Ok exactly
when the number of names is between 2 and 6 inclusive; when there are more
than 6 names the returned error is TooManyPlayers, and when there are fewer
than 2 the returned error is TooFewPlayers, each carrying the offending
player count.  The code returns Ok exactly on 2..6, but the two error
variants are swapped: 7 names yield TooFewPlayers 7 and 1 name yields
TooManyPlayers 1. -/
theorem C10_with_names_error_variants_swapped :
    (∀ names : List String,
      (∃ r, RawPlayers.with_names names = Except.ok r) ↔
        (2 ≤ names.length ∧ names.length ≤ 6)) ∧
    RawPlayers.with_names ["a", "b", "c", "d", "e", "f", "g"] =
      Except.error (PlayersInitError.TooFewPlayers 7) ∧
    RawPlayers.with_names ["a"] =
      Except.error (PlayersInitError.TooManyPlayers 1) ∧
    PlayersInitError.TooFewPlayers 7 ≠ PlayersInitError.TooManyPlayers 7 := by
  refine ⟨?_, rfl, rfl, by decide⟩
  intro names
  unfold RawPlayers.with_names
  dsimp only
  split_ifs with h6 h2
  · constructor
    · intro hex
      obtain ⟨r, hr⟩ := hex
      simp at hr
    · intro hle
      omega
  · constructor
    · intro hex
      obtain ⟨r, hr⟩ := hex
      simp at hr
    · intro hle
      omega
  · constructor
    · intro _
      omega
    · intro _
      exact ⟨_, rfl⟩

/-- C2: For every Block value, the card the block claims follows the mapping
ForeignAid to Duke, Assassinate to Contessa, Steal to Ambassador or Captain
as chosen; consequently Block(Contessa) is accepted for a block of
assassination.  In the code Block::claim maps a block of Assassinate to
Assassin, not Contessa, so the client validation Blocks::claims rejects
Block(Contessa) for an assassination block, even though the engine itself
maps the challengeable act BlockAssassination to Contessa. -/
theorem C2_block_claim_assassinate_is_assassin_not_contessa :
    (Block.mk PlayerId.One PlayerId.Two
        (BlockableAct.Assassinate PlayerId.Two)).claim = Card.Assassin ∧
    Card.Assassin ≠ Card.Contessa ∧
    Blocks.claims
      (Blocks.Other (Block.mk PlayerId.One PlayerId.Two
        (BlockableAct.Assassinate PlayerId.Two))) Card.Contessa = false ∧
    ChallengeableAct.toCard ChallengeableAct.BlockAssassination =
      Card.Contessa ∧
    (Block.mk PlayerId.One PlayerId.Two BlockableAct.ForeignAid).claim =
      Card.Duke ∧
    (Block.mk PlayerId.One PlayerId.Two
        (BlockableAct.Steal PlayerId.Two BlockStealClaim.Ambassador)).claim =
      Card.Ambassador ∧
    (Block.mk PlayerId.One PlayerId.Two
        (BlockableAct.Steal PlayerId.Two BlockStealClaim.Captain)).claim =
      Card.Captain := by
  refine ⟨rfl, by decide, rfl, rfl, rfl, rfl, rfl⟩

theorem set_coins_for_spec {ps : Players} {actor : PlayerId} {c : Nat}
    {ps' : Players} (h : ps.set_coins_for actor c = some ps') :
    ∃ p, ps.alive actor = some p ∧
      ps'.coinSum + p.coins = ps.coinSum + c ∧
      ps'.aliveCount = ps.aliveCount ∧
      ps'.dead = ps.dead ∧
      (∀ id, id ≠ actor → ps'.alive id = ps.alive id) ∧
      ps'.alive actor = some { p with coins := c } := by
  unfold Players.set_coins_for at h
  cases halive : ps.alive actor with
  | none => rw [halive] at h; exact absurd h (by simp)
  | some p =>
    rw [halive] at h
    obtain rfl := Option.some.inj h
    refine ⟨p, rfl, ?_, ?_, rfl, ?_, by simp⟩
    · cases actor <;>
        simp +decide [Players.coinSum, PlayerId.iter, coinOfOpt, halive] <;>
        omega
    · cases actor <;>
        simp +decide [Players.aliveCount, PlayerId.iter, aliveInd, halive]
    · intro id hid
      simp [hid]

theorem exchange_spec {ps : Players} {actor : PlayerId} {hand : Hand}
    {ps' : Players} (h : ps.exchange actor hand = some ps') :
    ∃ p, ps.alive actor = some p ∧
      ps'.coinSum = ps.coinSum ∧
      ps'.aliveCount = ps.aliveCount ∧
      ps'.dead = ps.dead ∧
      (∀ id, id ≠ actor → ps'.alive id = ps.alive id) ∧
      ps'.alive actor = some { p with hand := hand } := by
  unfold Players.exchange at h
  cases halive : ps.alive actor with
  | none => rw [halive] at h; exact absurd h (by simp)
  | some p =>
    rw [halive] at h
    obtain rfl := Option.some.inj h
    refine ⟨p, rfl, ?_, ?_, rfl, ?_, by simp⟩
    · cases actor <;>
        simp +decide [Players.coinSum, PlayerId.iter, coinOfOpt, halive]
    · cases actor <;>
        simp +decide [Players.aliveCount, PlayerId.iter, aliveInd, halive]
    · intro id hid
      simp [hid]

theorem players_kill_spec {ps : Players} {id : PlayerId} {coins : Nat}
    {ps' : Players} (h : ps.kill id = some (coins, ps')) :
    ∃ p, ps.alive id = some p ∧ coins = p.coins ∧
      ps'.coinSum + p.coins = ps.coinSum ∧
      ps'.aliveCount + 1 = ps.aliveCount ∧
      ps'.deadCount = ps.deadCount + 1 := by
  unfold Players.kill at h
  cases halive : ps.alive id with
  | none => rw [halive] at h; exact absurd h (by simp)
  | some p =>
    rw [halive] at h
    dsimp only at h
    cases hhand : p.hand with
    | Full c1 c2 => rw [hhand] at h; exact absurd h (by simp)
    | Last c1 c2 =>
      rw [hhand] at h
      dsimp only at h
      cases hdead : ps.dead id with
      | some q => rw [hdead] at h; exact absurd h (by simp)
      | none =>
        rw [hdead] at h
        dsimp only at h
        cases hck : ps.current_player.kill id with
        | none => rw [hck] at h; exact absurd h (by simp)
        | some cp =>
          rw [hck] at h
          dsimp only at h
          have hpair := Option.some.inj h
          have hcoins : coins = p.coins := (congrArg Prod.fst hpair).symm
          have hps : ps' = _ := (congrArg Prod.snd hpair).symm
          subst hps
          refine ⟨p, rfl, hcoins, ?_, ?_, ?_⟩
          · cases id <;>
              simp +decide [Players.coinSum, PlayerId.iter, coinOfOpt,
                halive] <;>
              omega
          · cases id <;>
              simp +decide [Players.aliveCount, PlayerId.iter, aliveInd,
                halive] <;>
              omega
          · cases id <;>
              simp +decide [Players.deadCount, PlayerId.iter, deadInd,
                hdead] <;>
              omega

theorem players_end_turn_spec {ps ps' : Players}
    (h : ps.end_turn = some ps') :
    ps'.alive = ps.alive ∧ ps'.dead = ps.dead := by
  unfold Players.end_turn at h
  cases he : ps.current_player.end_turn with
  | none => rw [he] at h; exact absurd h (by simp)
  | some cp =>
    rw [he] at h
    obtain rfl := Option.some.inj h
    exact ⟨rfl, rfl⟩

theorem coinSum_congr {ps ps' : Players} (h : ps'.alive = ps.alive) :
    ps'.coinSum = ps.coinSum := by
  unfold Players.coinSum
  rw [h]

theorem aliveCount_congr {ps ps' : Players} (h : ps'.alive = ps.alive) :
    ps'.aliveCount = ps.aliveCount := by
  unfold Players.aliveCount
  rw [h]

theorem deadCount_congr {ps ps' : Players} (h : ps'.dead = ps.dead) :
    ps'.deadCount = ps.deadCount := by
  unfold Players.deadCount
  rw [h]

theorem coup_end_turn_spec {d : CoupData} {g' : Game}
    (h : CoupGame.end_turn d = some g') :
    g'.data.players.alive = d.players.alive ∧
      g'.data.players.dead = d.players.dead ∧
      g'.data.coins = d.coins ∧
      g'.data.deck = d.deck ∧
      g'.phase.inFlight = 0 ∧
      g'.phase.tag = PhaseTag.Wait := by
  unfold CoupGame.end_turn at h
  cases het : d.players.end_turn with
  | none => rw [het] at h; exact absurd h (by simp)
  | some players =>
    rw [het] at h
    dsimp only at h
    cases hga : players.generate_actions_for players.current with
    | none => rw [hga] at h; exact absurd h (by simp)
    | some pa =>
      rw [hga] at h
      dsimp only at h
      obtain rfl := Option.some.inj h
      obtain ⟨ha, hd⟩ := players_end_turn_spec het
      exact ⟨ha, hd, rfl, rfl, rfl, rfl⟩

theorem coup_kill_spec {d : CoupData} {v : PlayerId} {g' : Game}
    (h : CoupGame.kill d v = some g') :
    g'.data.coins + g'.data.players.coinSum =
        d.coins + d.players.coinSum ∧
      g'.data.deck = d.deck ∧
      2 * g'.data.players.aliveCount + 2 * g'.data.players.deadCount =
        2 * d.players.aliveCount + 2 * d.players.deadCount - 2 + 2 ∧
      g'.phase.inFlight = 0 ∧
      (g'.phase.tag = PhaseTag.End ∨ g'.phase.tag = PhaseTag.Wait) ∧
      1 ≤ d.players.aliveCount := by
  unfold CoupGame.kill at h
  cases hk : d.players.kill v with
  | none => rw [hk] at h; exact absurd h (by simp)
  | some pr =>
    obtain ⟨player_coins, players⟩ := pr
    rw [hk] at h
    dsimp only at h
    obtain ⟨p, halive, hcoins, hsum, hac, hdc⟩ := players_kill_spec hk
    subst hcoins
    by_cases hover : players.is_game_over = true
    · rw [if_pos hover] at h
      obtain rfl := Option.some.inj h
      refine ⟨by dsimp; omega, rfl, by dsimp; omega, rfl, Or.inl rfl,
        by omega⟩
    · rw [if_neg hover] at h
      obtain ⟨ha, hd, hc, hdk, hif, htag⟩ := coup_end_turn_spec h
      have h1 := coinSum_congr ha
      have h2 := aliveCount_congr ha
      have h3 := deadCount_congr hd
      refine ⟨?_, hdk, ?_, hif, Or.inr htag, by omega⟩
      · rw [hc, h1]; dsimp only; omega
      · rw [h2, h3]; dsimp only; omega

theorem coup_lose_influence_spec {d : CoupData} {v : PlayerId} {g' : Game}
    (h : CoupGame.lose_influence d v = some g') :
    g'.data.coins + g'.data.players.coinSum =
        d.coins + d.players.coinSum ∧
      g'.data.deck = d.deck ∧
      2 * g'.data.players.aliveCount + 2 * g'.data.players.deadCount =
        2 * d.players.aliveCount + 2 * d.players.deadCount ∧
      g'.phase.inFlight = 0 ∧
      g'.phase.tag ≠ PhaseTag.Reactable := by
  unfold CoupGame.lose_influence at h
  cases hh : d.players.hand_for v with
  | none => rw [hh] at h; exact absurd h (by simp)
  | some hand =>
    rw [hh] at h
    cases hand with
    | Full c1 c2 =>
      dsimp only at h
      obtain rfl := Option.some.inj h
      exact ⟨rfl, rfl, rfl, rfl, by simp [Phase.tag]⟩
    | Last c1 c2 =>
      dsimp only at h
      obtain ⟨h1, h2, h3, h4, htag, h5⟩ := coup_kill_spec h
      refine ⟨h1, h2, by omega, h4, ?_⟩
      cases htag with
      | inl ht => rw [ht]; simp
      | inr ht => rw [ht]; simp

theorem coup_withdraw_spec {d : CoupData} {w : Withdrawal}
    {actor : PlayerId} {g' : Game}
    (h : CoupGame.withdraw d w actor = some g') :
    g'.data.coins + g'.data.players.coinSum =
        d.coins + d.players.coinSum ∧
      g'.data.deck = d.deck ∧
      g'.data.players.aliveCount = d.players.aliveCount ∧
      g'.data.players.deadCount = d.players.deadCount ∧
      g'.phase.inFlight = 0 ∧
      g'.phase.tag = PhaseTag.Wait := by
  unfold CoupGame.withdraw at h
  cases hgc : d.players.get_coins_for actor with
  | none => rw [hgc] at h; exact absurd h (by simp)
  | some coins =>
    rw [hgc] at h
    dsimp only at h
    unfold CoinPile.withdraw at h
    by_cases hle : w.amount ≤ d.coins
    · rw [if_pos hle] at h
      dsimp only at h
      cases hsc : d.players.set_coins_for actor (coins + w.amount) with
      | none => rw [hsc] at h; exact absurd h (by simp)
      | some players =>
        rw [hsc] at h
        obtain ⟨p, halive, hsum, hac, hdc, _, _⟩ := set_coins_for_spec hsc
        have hp : coins = p.coins := by
          unfold Players.get_coins_for at hgc
          rw [halive] at hgc
          exact (Option.some.inj hgc).symm
        subst hp
        obtain ⟨ha, hd, hc, hdk, hif, htag⟩ := coup_end_turn_spec h
        have h1 := coinSum_congr ha
        have h2 := aliveCount_congr ha
        have h3 := deadCount_congr hd
        dsimp only at h1 h2 h3 hc hdk
        refine ⟨?_, hdk, by rw [h2, hac], ?_, hif, htag⟩
        · rw [hc, h1]; omega
        · rw [h3]; unfold Players.deadCount; rw [hdc]
    · rw [if_neg hle] at h; exact absurd h (by simp)

theorem coup_spend_spec {d : CoupData} {dep : Deposit}
    {actor : PlayerId} {d2 : CoupData}
    (h : CoupGame.spend d dep actor = some d2) :
    d2.coins + d2.players.coinSum = d.coins + d.players.coinSum ∧
      d2.deck = d.deck ∧
      d2.players.aliveCount = d.players.aliveCount ∧
      d2.players.deadCount = d.players.deadCount := by
  unfold CoupGame.spend at h
  cases hgc : d.players.get_coins_for actor with
  | none => rw [hgc] at h; exact absurd h (by simp)
  | some coins =>
    rw [hgc] at h
    dsimp only at h
    unfold CoinPile.spend at h
    by_cases hle : dep.amount ≤ coins
    · rw [if_pos hle] at h
      dsimp only at h
      cases hsc : d.players.set_coins_for actor (coins - dep.amount) with
      | none => rw [hsc] at h; exact absurd h (by simp)
      | some players =>
        rw [hsc] at h
        obtain rfl := Option.some.inj h
        obtain ⟨p, halive, hsum, hac, hdc, _, _⟩ := set_coins_for_spec hsc
        have hp : coins = p.coins := by
          unfold Players.get_coins_for at hgc
          rw [halive] at hgc
          exact (Option.some.inj hgc).symm
        subst hp
        refine ⟨by dsimp; omega, rfl, by dsimp; rw [hac], ?_⟩
        · dsimp; unfold Players.deadCount; rw [hdc]
    · rw [if_neg hle] at h; exact absurd h (by simp)

/-- Coin bookkeeping preserved by a transition from data d. -/
def CoinB (d : CoupData) (g' : Game) : Prop :=
  g'.data.coins + g'.data.players.coinSum = d.coins + d.players.coinSum

/-- Card bookkeeping preserved by a transition from data d whose source
phase held fl in-flight cards. -/
def CardB (d : CoupData) (fl : Nat) (g' : Game) : Prop :=
  g'.data.deck.length + g'.phase.inFlight +
      2 * g'.data.players.aliveCount + 2 * g'.data.players.deadCount =
    d.deck.length + fl +
      2 * d.players.aliveCount + 2 * d.players.deadCount

theorem pop_length {deck : List Card} {c : Card} {deck' : List Card}
    (h : Deck.pop deck = some (c, deck')) :
    deck.length = deck'.length + 1 := by
  unfold Deck.pop at h
  cases hl : deck.getLast? with
  | none => rw [hl] at h; exact absurd h (by simp)
  | some c0 =>
    rw [hl] at h
    dsimp only at h
    have hne : deck ≠ [] := by
      intro hnil
      rw [hnil] at hl
      simp at hl
    have hd : deck' = deck.dropLast := by
      have := Option.some.inj h
      exact (congrArg Prod.snd this).symm
    subst hd
    rw [List.length_dropLast]
    have : 1 ≤ deck.length := List.length_pos.mpr hne
    omega

theorem draw_two_length {deck : List Card} {c1 c2 : Card}
    {deck' : List Card} (h : Deck.draw_two deck = some (c1, c2, deck')) :
    deck.length = deck'.length + 2 := by
  unfold Deck.draw_two at h
  cases h1 : Deck.pop deck with
  | none => rw [h1] at h; exact absurd h (by simp)
  | some pr1 =>
    obtain ⟨ca, da⟩ := pr1
    rw [h1] at h
    dsimp only at h
    cases h2 : Deck.pop da with
    | none => rw [h2] at h; exact absurd h (by simp)
    | some pr2 =>
      obtain ⟨cb, db⟩ := pr2
      rw [h2] at h
      dsimp only at h
      have := Option.some.inj h
      have hdb : deck' = db := by
        have := congrArg (fun x => x.2.2) this
        exact this.symm
      subst hdb
      have l1 := pop_length h1
      have l2 := pop_length h2
      omega

theorem tag_not_reactable_stealSafe {g : Game}
    (h : g.phase.tag ≠ PhaseTag.Reactable) : StealSafe g := by
  unfold StealSafe
  cases hph : g.phase <;> try trivial
  rw [hph] at h
  exact absurd rfl h

theorem coup_end_turn_bundle {d : CoupData} {g' : Game}
    (h : CoupGame.end_turn d = some g') :
    CoinB d g' ∧ CardB d 0 g' ∧ StealSafe g' := by
  obtain ⟨ha, hd, hc, hdk, hif, htag⟩ := coup_end_turn_spec h
  have h1 := coinSum_congr ha
  have h2 := aliveCount_congr ha
  have h3 := deadCount_congr hd
  refine ⟨?_, ?_, ?_⟩
  · unfold CoinB
    rw [hc, h1]
  · unfold CardB
    rw [hdk, h2, h3, hif]
  · exact tag_not_reactable_stealSafe (by rw [htag]; simp)

theorem coup_lose_influence_bundle {d : CoupData} {v : PlayerId} {g' : Game}
    (h : CoupGame.lose_influence d v = some g') :
    CoinB d g' ∧ CardB d 0 g' ∧ StealSafe g' := by
  obtain ⟨h1, h2, h3, h4, h5⟩ := coup_lose_influence_spec h
  exact ⟨h1, by unfold CardB; rw [h2, h4]; omega,
    tag_not_reactable_stealSafe h5⟩

theorem coup_withdraw_bundle {d : CoupData} {w : Withdrawal}
    {actor : PlayerId} {g' : Game}
    (h : CoupGame.withdraw d w actor = some g') :
    CoinB d g' ∧ CardB d 0 g' ∧ StealSafe g' := by
  obtain ⟨h1, h2, h3, h4, h5, h6⟩ := coup_withdraw_spec h
  exact ⟨h1, by unfold CardB; rw [h2, h3, h4, h5],
    tag_not_reactable_stealSafe (by rw [h6]; simp)⟩

theorem safe_advance_bundle {d : CoupData} {actor : PlayerId}
    {kind : SafeAct} {g' : Game}
    (h : SafeState.advance d actor kind = some g') :
    CoinB d g' ∧ CardB d 0 g' ∧ StealSafe g' := by
  unfold SafeState.advance at h
  cases kind with
  | Income => exact coup_withdraw_bundle h
  | Coup victim =>
    dsimp only at h
    cases hs : CoupGame.spend d Deposit.Coup actor with
    | none => rw [hs] at h; exact absurd h (by simp)
    | some d2 =>
      rw [hs] at h
      dsimp only at h
      obtain ⟨s1, s2, s3, s4⟩ := coup_spend_spec hs
      obtain ⟨l1, l2, l3⟩ := coup_lose_influence_bundle h
      refine ⟨?_, ?_, l3⟩
      · unfold CoinB at l1 ⊢
        omega
      · unfold CardB at l2 ⊢
        rw [s2, s3, s4] at l2
        omega

theorem oc_advance_bundle {d : CoupData} {actor : PlayerId}
    {kind : OnlyChallengeableAct} {g' : Game}
    (h : OnlyChallengeableState.advance d actor kind = some g') :
    CoinB d g' ∧ CardB d 0 g' ∧ StealSafe g' := by
  unfold OnlyChallengeableState.advance at h
  cases kind with
  | Tax => exact coup_withdraw_bundle h
  | Exchange =>
    dsimp only at h
    cases hh : d.players.hand_for actor with
    | none => rw [hh] at h; exact absurd h (by simp)
    | some hand =>
      rw [hh] at h
      dsimp only at h
      cases hdt : Deck.draw_two d.deck with
      | none => rw [hdt] at h; exact absurd h (by simp)
      | some tr =>
        obtain ⟨c1, c2, deck2⟩ := tr
        rw [hdt] at h
        dsimp only at h
        have hlen := draw_two_length hdt
        cases hand with
        | Full c3 c4 =>
          dsimp only at h
          obtain rfl := Option.some.inj h
          refine ⟨rfl, ?_, by unfold StealSafe; trivial⟩
          unfold CardB Phase.inFlight
          dsimp only
          omega
        | Last c3 c4 =>
          dsimp only at h
          obtain rfl := Option.some.inj h
          refine ⟨rfl, ?_, by unfold StealSafe; trivial⟩
          unfold CardB Phase.inFlight
          dsimp only
          omega

theorem block_advance_bundle {d : CoupData} {actor : PlayerId}
    {kind : BlockableAct} {g' : Game}
    (h : BlockState.advance d actor kind = some g') :
    CoinB d g' ∧ CardB d 0 g' ∧ StealSafe g' := by
  unfold BlockState.advance at h
  cases kind with
  | Assassinate victim =>
    dsimp only at h
    cases hs : CoupGame.spend d Deposit.Assassinate actor with
    | none => rw [hs] at h; exact absurd h (by simp)
    | some d2 =>
      rw [hs] at h
      dsimp only at h
      obtain ⟨s1, s2, s3, s4⟩ := coup_spend_spec hs
      obtain ⟨l1, l2, l3⟩ := coup_end_turn_bundle h
      refine ⟨?_, ?_, l3⟩
      · unfold CoinB at l1 ⊢
        omega
      · unfold CardB at l2 ⊢
        rw [s2, s3, s4] at l2
        omega
  | ForeignAid => exact coup_end_turn_bundle h
  | Steal victim claim => exact coup_end_turn_bundle h

theorem challenge_advance_bundle {d : CoupData} {actor challenger : PlayerId}
    {kind : ChallengeableAct} {g' : Game}
    (h : ChallengeState.advance d actor challenger kind = some g') :
    CoinB d g' ∧ CardB d 0 g' ∧ StealSafe g' := by
  unfold ChallengeState.advance at h
  cases hw : d.players.challenge_winner actor challenger kind.toCard with
  | none => rw [hw] at h; exact absurd h (by simp)
  | some victim =>
    rw [hw] at h
    exact coup_lose_influence_bundle h

theorem reactable_advance_bundle {d : CoupData} {actor : PlayerId}
    {kind : ReactableAct} {g' : Game}
    (h : ReactableState.advance d actor kind = some g') :
    CardB d 0 g' ∧ StealSafe g' ∧
      ((∀ victim, kind = ReactableAct.Steal victim → victim ≠ actor) →
        CoinB d g') := by
  unfold ReactableState.advance at h
  cases kind with
  | Assassinate victim =>
    dsimp only at h
    cases hs : CoupGame.spend d Deposit.Assassinate actor with
    | none => rw [hs] at h; exact absurd h (by simp)
    | some d2 =>
      rw [hs] at h
      dsimp only at h
      obtain ⟨s1, s2, s3, s4⟩ := coup_spend_spec hs
      obtain ⟨l1, l2, l3⟩ := coup_lose_influence_bundle h
      refine ⟨?_, l3, ?_⟩
      · unfold CardB at l2 ⊢
        rw [s2, s3, s4] at l2
        omega
      · intro _
        unfold CoinB at l1 ⊢
        omega
  | Steal victim =>
    dsimp only at h
    cases hv : d.players.get_coins_for victim with
    | none => rw [hv] at h; exact absurd h (by simp)
    | some vc =>
      rw [hv] at h
      dsimp only at h
      cases ha : d.players.get_coins_for actor with
      | none => rw [ha] at h; exact absurd h (by simp)
      | some ac =>
        rw [ha] at h
        dsimp only at h
        unfold PlayerCoins.steal at h
        by_cases h2c : 2 ≤ vc
        · rw [if_pos h2c] at h
          dsimp only at h
          cases hs1 : d.players.set_coins_for victim (vc - 2) with
          | none => rw [hs1] at h; exact absurd h (by simp)
          | some players1 =>
            rw [hs1] at h
            dsimp only at h
            cases hs2 : players1.set_coins_for actor (ac + 2) with
            | none => rw [hs2] at h; exact absurd h (by simp)
            | some players2 =>
              rw [hs2] at h
              dsimp only at h
              obtain ⟨pv, hpv, hsum1, hac1, hdd1, hpt1, hset1⟩ :=
                set_coins_for_spec hs1
              obtain ⟨pa1, hpa1, hsum2, hac2, hdd2, hpt2, hset2⟩ :=
                set_coins_for_spec hs2
              obtain ⟨e1, e2, e3⟩ := coup_end_turn_bundle h
              refine ⟨?_, e3, ?_⟩
              · unfold CardB at e2 ⊢
                dsimp only at e2
                rw [hac2, hac1] at e2
                have hd1 : players1.deadCount = d.players.deadCount :=
                  deadCount_congr hdd1
                have hd2 : players2.deadCount = players1.deadCount :=
                  deadCount_congr hdd2
                rw [hd2, hd1] at e2
                omega
              · intro hne
                have hvne : victim ≠ actor := hne victim rfl
                unfold CoinB at e1 ⊢
                dsimp only at e1
                have hpveq : vc = pv.coins := by
                  unfold Players.get_coins_for at hv
                  rw [hpv] at hv
                  exact (Option.some.inj hv).symm
                have hpa1eq : pa1.coins = ac := by
                  have := hpt1 actor (fun hh => hvne hh.symm)
                  rw [this] at hpa1
                  unfold Players.get_coins_for at ha
                  cases hal : d.players.alive actor with
                  | none => rw [hal] at ha; exact absurd ha (by simp)
                  | some pa0 =>
                    rw [hal] at ha
                    rw [hal] at hpa1
                    obtain rfl := Option.some.inj hpa1
                    exact Option.some.inj ha
                omega
        · rw [if_neg h2c] at h
          exact absurd h (by simp)

theorem choose_victim_bundle {d : CoupData} {victim : PlayerId}
    {choice : Card} {g' : Game}
    (h : ChooseVictimCardState.advance d victim choice = some g') :
    CoinB d g' ∧ CardB d 0 g' ∧ StealSafe g' := by
  unfold ChooseVictimCardState.advance at h
  cases hh : d.players.hand_for victim with
  | none => rw [hh] at h; exact absurd h (by simp)
  | some hand =>
    rw [hh] at h
    cases hand with
    | Last c1 c2 => exact absurd h (by simp)
    | Full c1 c2 =>
      dsimp only at h
      cases hrem : (if c1 = choice then some c2
          else if c2 = choice then some c1 else none) with
      | none => rw [hrem] at h; exact absurd h (by simp)
      | some rem =>
        rw [hrem] at h
        dsimp only at h
        cases hex : d.players.exchange victim
            (Hand.Last rem { card := choice }) with
        | none => rw [hex] at h; exact absurd h (by simp)
        | some players =>
          rw [hex] at h
          obtain ⟨p, hp, hcs, hac, hdd, hpt, hset⟩ := exchange_spec hex
          obtain ⟨e1, e2, e3⟩ := coup_end_turn_bundle h
          refine ⟨?_, ?_, e3⟩
          · unfold CoinB at e1 ⊢
            dsimp only at e1
            rw [hcs] at e1
            omega
          · unfold CardB at e2 ⊢
            dsimp only at e2
            rw [hac, deadCount_congr hdd] at e2
            omega

theorem choose_one_bundle {d : CoupData} {actor : PlayerId}
    {c1 c2 c3 choice : Card} {g' : Game}
    (h : ChooseOneFromThreeState.advance d actor c1 c2 c3 choice = some g') :
    CoinB d g' ∧ CardB d 2 g' ∧ StealSafe g' := by
  unfold ChooseOneFromThreeState.advance at h
  dsimp only at h
  cases hidx : [c1, c2, c3].findIdx? (fun c => c = choice) with
  | none => rw [hidx] at h; exact absurd h (by simp)
  | some index =>
    rw [hidx] at h
    dsimp only at h
    cases hh : d.players.hand_for actor with
    | none => rw [hh] at h; exact absurd h (by simp)
    | some hand =>
      rw [hh] at h
      cases hand with
      | Full a b => exact absurd h (by simp)
      | Last a dead =>
        dsimp only at h
        cases hex : d.players.exchange actor (Hand.Last choice dead) with
        | none => rw [hex] at h; exact absurd h (by simp)
        | some players =>
          rw [hex] at h
          dsimp only at h
          by_cases hlen : (([c1, c2, c3].enum.filter
              (fun ic => ic.1 ≠ index)).map (fun ic => ic.2)).length = 2
          · rw [if_pos hlen] at h
            obtain ⟨p, hp, hcs, hac, hdd, hpt, hset⟩ := exchange_spec hex
            obtain ⟨e1, e2, e3⟩ := coup_end_turn_bundle h
            refine ⟨?_, ?_, e3⟩
            · unfold CoinB at e1 ⊢
              dsimp only at e1
              rw [hcs] at e1
              omega
            · unfold CardB at e2 ⊢
              dsimp only at e2
              rw [hac, deadCount_congr hdd] at e2
              unfold Deck.return_cards at e2
              rw [List.length_append, hlen] at e2
              omega
          · rw [if_neg hlen] at h
            exact absurd h (by simp)

theorem choose_two_bundle {d : CoupData} {actor : PlayerId}
    {d1 d2 d3 d4 c1 c2 : Card} {g' : Game}
    (h : ChooseTwoFromFourState.advance d actor d1 d2 d3 d4 c1 c2 =
      some g') :
    CoinB d g' ∧ CardB d 2 g' ∧ StealSafe g' ∧
      g'.data.deck.length = d.deck.length + 2 := by
  unfold ChooseTwoFromFourState.advance at h
  dsimp only at h
  cases hmi : match_to_indices c1 c2 [d1, d2, d3, d4] with
  | mk oi1 oi2 =>
    rw [hmi] at h
    cases oi1 with
    | none => exact absurd h (by simp)
    | some i1 =>
      cases oi2 with
      | none => exact absurd h (by simp)
      | some i2 =>
        dsimp only at h
        cases hex : d.players.exchange actor (Hand.Full c1 c2) with
        | none => rw [hex] at h; exact absurd h (by simp)
        | some players =>
          rw [hex] at h
          dsimp only at h
          by_cases hlen : (([d1, d2, d3, d4].enum.filter
              (fun ic => ic.1 ≠ i1 && ic.1 ≠ i2)).map
                (fun ic => ic.2)).length = 2
          · rw [if_pos hlen] at h
            obtain ⟨p, hp, hcs, hac, hdd, hpt, hset⟩ := exchange_spec hex
            obtain ⟨ha2, hd2, hc2, hdk2, hif2, htag2⟩ := coup_end_turn_spec h
            obtain ⟨e1, e2, e3⟩ := coup_end_turn_bundle h
            refine ⟨?_, ?_, e3, ?_⟩
            · unfold CoinB at e1 ⊢
              dsimp only at e1
              rw [hcs] at e1
              omega
            · unfold CardB at e2 ⊢
              dsimp only at e2
              rw [hac, deadCount_congr hdd] at e2
              unfold Deck.return_cards at e2
              rw [List.length_append, hlen] at e2
              omega
            · rw [hdk2]
              dsimp only
              unfold Deck.return_cards
              rw [List.length_append, hlen]
          · rw [if_neg hlen] at h
            exact absurd h (by simp)

theorem wait_play_data (d : CoupData) (a : Action) :
    (WaitState.play d a).data = d := by
  cases hk : a.kind <;> simp [WaitState.play, hk]

theorem wait_play_inFlight (d : CoupData) (a : Action) :
    (WaitState.play d a).phase.inFlight = 0 := by
  cases hk : a.kind <;> simp [WaitState.play, hk, Phase.inFlight]

theorem wait_play_stealSafe (d : CoupData) (a : Action)
    (hi : LegalInput (Input.play a)) : StealSafe (WaitState.play d a) := by
  unfold LegalInput at hi
  dsimp only at hi
  unfold StealSafe WaitState.play
  cases hk : a.kind <;> (try rw [hk] at hi) <;>
    (try dsimp only at hi) <;> (try dsimp only) <;> trivial

theorem cardTotal_of_cardB {d : CoupData} {ph : Phase} {g' : Game}
    (hb : CardB d ph.inFlight g') :
    cardTotal g' = cardTotal { data := d, phase := ph } := by
  unfold cardTotal
  unfold CardB at hb
  dsimp only
  omega

theorem coinTotal_of_coinB {d : CoupData} {ph : Phase} {g' : Game}
    (hb : CoinB d g') :
    coinTotal g' = coinTotal { data := d, phase := ph } := by
  unfold coinTotal
  unfold CoinB at hb
  dsimp only
  omega

theorem step_cardTotal_eq {g : Game} {i : Input} {g' : Game}
    (h : step g i = some g') : cardTotal g' = cardTotal g := by
  obtain ⟨d, ph⟩ := g
  cases ph with
  | Wait pa =>
    cases i with
    | play a =>
      simp only [step] at h
      obtain rfl := Option.some.inj h
      refine cardTotal_of_cardB ?_
      unfold CardB
      rw [wait_play_data, wait_play_inFlight]
      rfl
    | advance => simp [step] at h
    | advanceCard c => simp [step] at h
    | advanceTwo c1 c2 => simp [step] at h
    | challenge ch => simp [step] at h
    | block b => simp [step] at h
  | Safe actor kind =>
    cases i with
    | play a => simp [step] at h
    | advance =>
      simp only [step] at h
      exact cardTotal_of_cardB (safe_advance_bundle h).2.1
    | advanceCard c => simp [step] at h
    | advanceTwo c1 c2 => simp [step] at h
    | challenge ch => simp [step] at h
    | block b => simp [step] at h
  | OnlyChallengeable pcs actor kind =>
    cases i with
    | play a => simp [step] at h
    | advance =>
      simp only [step] at h
      exact cardTotal_of_cardB (oc_advance_bundle h).2.1
    | advanceCard c => simp [step] at h
    | advanceTwo c1 c2 => simp [step] at h
    | challenge ch =>
      simp only [step] at h
      obtain rfl := Option.some.inj h
      rfl
    | block b => simp [step] at h
  | OnlyBlockable pbs actor =>
    cases i with
    | play a => simp [step] at h
    | advance =>
      simp only [step] at h
      exact cardTotal_of_cardB (coup_withdraw_bundle h).2.1
    | advanceCard c => simp [step] at h
    | advanceTwo c1 c2 => simp [step] at h
    | challenge ch => simp [step] at h
    | block b =>
      simp only [step] at h
      obtain rfl := Option.some.inj h
      rfl
  | Reactable pr actor kind =>
    cases i with
    | play a => simp [step] at h
    | advance =>
      simp only [step] at h
      exact cardTotal_of_cardB (reactable_advance_bundle h).1
    | advanceCard c => simp [step] at h
    | advanceTwo c1 c2 => simp [step] at h
    | challenge ch =>
      simp only [step] at h
      obtain rfl := Option.some.inj h
      rfl
    | block b =>
      simp only [step] at h
      obtain rfl := Option.some.inj h
      rfl
  | ChooseVictimCard victim ca cb =>
    cases i with
    | play a => simp [step] at h
    | advance => simp [step] at h
    | advanceCard c =>
      simp only [step] at h
      exact cardTotal_of_cardB (choose_victim_bundle h).2.1
    | advanceTwo c1 c2 => simp [step] at h
    | challenge ch => simp [step] at h
    | block b => simp [step] at h
  | ChooseOneFromThree actor ca cb cc =>
    cases i with
    | play a => simp [step] at h
    | advance => simp [step] at h
    | advanceCard c =>
      simp only [step] at h
      exact cardTotal_of_cardB (choose_one_bundle h).2.1
    | advanceTwo c1 c2 => simp [step] at h
    | challenge ch => simp [step] at h
    | block b => simp [step] at h
  | ChooseTwoFromFour actor ca cb cc cd =>
    cases i with
    | play a => simp [step] at h
    | advance => simp [step] at h
    | advanceCard c => simp [step] at h
    | advanceTwo c1 c2 =>
      simp only [step] at h
      exact cardTotal_of_cardB (choose_two_bundle h).2.1
    | challenge ch => simp [step] at h
    | block b => simp [step] at h
  | Challenge actor challenger kind =>
    cases i with
    | play a => simp [step] at h
    | advance =>
      simp only [step] at h
      exact cardTotal_of_cardB (challenge_advance_bundle h).2.1
    | advanceCard c => simp [step] at h
    | advanceTwo c1 c2 => simp [step] at h
    | challenge ch => simp [step] at h
    | block b => simp [step] at h
  | Block pcs actor blocker kind =>
    cases i with
    | play a => simp [step] at h
    | advance =>
      simp only [step] at h
      exact cardTotal_of_cardB (block_advance_bundle h).2.1
    | advanceCard c => simp [step] at h
    | advanceTwo c1 c2 => simp [step] at h
    | challenge ch =>
      simp only [step] at h
      obtain rfl := Option.some.inj h
      rfl
    | block b => simp [step] at h
  | End =>
    cases i with
    | play a => simp [step] at h
    | advance => simp [step] at h
    | advanceCard c => simp [step] at h
    | advanceTwo c1 c2 => simp [step] at h
    | challenge ch => simp [step] at h
    | block b => simp [step] at h

theorem step_coinTotal_eq {g : Game} {i : Input} {g' : Game}
    (h : step g i = some g') (hs : StealSafe g) (hi : LegalInput i) :
    coinTotal g' = coinTotal g ∧ StealSafe g' := by
  obtain ⟨d, ph⟩ := g
  cases ph with
  | Wait pa =>
    cases i with
    | play a =>
      simp only [step] at h
      obtain rfl := Option.some.inj h
      exact ⟨coinTotal_of_coinB (by unfold CoinB; rw [wait_play_data]),
        wait_play_stealSafe d a hi⟩
    | advance => simp [step] at h
    | advanceCard c => simp [step] at h
    | advanceTwo c1 c2 => simp [step] at h
    | challenge ch => simp [step] at h
    | block b => simp [step] at h
  | Safe actor kind =>
    cases i with
    | play a => simp [step] at h
    | advance =>
      simp only [step] at h
      exact ⟨coinTotal_of_coinB (safe_advance_bundle h).1,
        (safe_advance_bundle h).2.2⟩
    | advanceCard c => simp [step] at h
    | advanceTwo c1 c2 => simp [step] at h
    | challenge ch => simp [step] at h
    | block b => simp [step] at h
  | OnlyChallengeable pcs actor kind =>
    cases i with
    | play a => simp [step] at h
    | advance =>
      simp only [step] at h
      exact ⟨coinTotal_of_coinB (oc_advance_bundle h).1,
        (oc_advance_bundle h).2.2⟩
    | advanceCard c => simp [step] at h
    | advanceTwo c1 c2 => simp [step] at h
    | challenge ch =>
      simp only [step] at h
      obtain rfl := Option.some.inj h
      exact ⟨rfl, by unfold StealSafe; trivial⟩
    | block b => simp [step] at h
  | OnlyBlockable pbs actor =>
    cases i with
    | play a => simp [step] at h
    | advance =>
      simp only [step] at h
      exact ⟨coinTotal_of_coinB (coup_withdraw_bundle h).1,
        (coup_withdraw_bundle h).2.2⟩
    | advanceCard c => simp [step] at h
    | advanceTwo c1 c2 => simp [step] at h
    | challenge ch => simp [step] at h
    | block b =>
      simp only [step] at h
      obtain rfl := Option.some.inj h
      exact ⟨rfl, by unfold StealSafe CoupGame.transition_to_block; trivial⟩
  | Reactable pr actor kind =>
    cases i with
    | play a => simp [step] at h
    | advance =>
      simp only [step] at h
      have hcond : ∀ victim, kind = ReactableAct.Steal victim → victim ≠ actor := by
        intro victim hv
        subst hv
        unfold StealSafe at hs
        exact hs
      exact ⟨coinTotal_of_coinB ((reactable_advance_bundle h).2.2 hcond),
        (reactable_advance_bundle h).2.1⟩
    | advanceCard c => simp [step] at h
    | advanceTwo c1 c2 => simp [step] at h
    | challenge ch =>
      simp only [step] at h
      obtain rfl := Option.some.inj h
      exact ⟨rfl, by unfold StealSafe; trivial⟩
    | block b =>
      simp only [step] at h
      obtain rfl := Option.some.inj h
      exact ⟨rfl, by unfold StealSafe CoupGame.transition_to_block; trivial⟩
  | ChooseVictimCard victim ca cb =>
    cases i with
    | play a => simp [step] at h
    | advance => simp [step] at h
    | advanceCard c =>
      simp only [step] at h
      exact ⟨coinTotal_of_coinB (choose_victim_bundle h).1,
        (choose_victim_bundle h).2.2⟩
    | advanceTwo c1 c2 => simp [step] at h
    | challenge ch => simp [step] at h
    | block b => simp [step] at h
  | ChooseOneFromThree actor ca cb cc =>
    cases i with
    | play a => simp [step] at h
    | advance => simp [step] at h
    | advanceCard c =>
      simp only [step] at h
      exact ⟨coinTotal_of_coinB (choose_one_bundle h).1,
        (choose_one_bundle h).2.2⟩
    | advanceTwo c1 c2 => simp [step] at h
    | challenge ch => simp [step] at h
    | block b => simp [step] at h
  | ChooseTwoFromFour actor ca cb cc cd =>
    cases i with
    | play a => simp [step] at h
    | advance => simp [step] at h
    | advanceCard c => simp [step] at h
    | advanceTwo c1 c2 =>
      simp only [step] at h
      exact ⟨coinTotal_of_coinB (choose_two_bundle h).1,
        (choose_two_bundle h).2.2.1⟩
    | challenge ch => simp [step] at h
    | block b => simp [step] at h
  | Challenge actor challenger kind =>
    cases i with
    | play a => simp [step] at h
    | advance =>
      simp only [step] at h
      exact ⟨coinTotal_of_coinB (challenge_advance_bundle h).1,
        (challenge_advance_bundle h).2.2⟩
    | advanceCard c => simp [step] at h
    | advanceTwo c1 c2 => simp [step] at h
    | challenge ch => simp [step] at h
    | block b => simp [step] at h
  | Block pcs actor blocker kind =>
    cases i with
    | play a => simp [step] at h
    | advance =>
      simp only [step] at h
      exact ⟨coinTotal_of_coinB (block_advance_bundle h).1,
        (block_advance_bundle h).2.2⟩
    | advanceCard c => simp [step] at h
    | advanceTwo c1 c2 => simp [step] at h
    | challenge ch =>
      simp only [step] at h
      obtain rfl := Option.some.inj h
      exact ⟨rfl, by unfold StealSafe; trivial⟩
    | block b => simp [step] at h
  | End =>
    cases i with
    | play a => simp [step] at h
    | advance => simp [step] at h
    | advanceCard c => simp [step] at h
    | advanceTwo c1 c2 => simp [step] at h
    | challenge ch => simp [step] at h
    | block b => simp [step] at h



/-- Coin sum of a raw alive map. -/
def mapCoinSum (f : PlayerId → Option Player) : Nat :=
  (PlayerId.iter.map (fun id => coinOfOpt (f id))).sum

/-- Seat count of a raw alive map. -/
def mapAliveCount (f : PlayerId → Option Player) : Nat :=
  (PlayerId.iter.map (fun id => aliveInd (f id))).sum

theorem mapCoinSum_update {f : PlayerId → Option Player} {key : PlayerId}
    {val : Player} (hfresh : f key = none) :
    mapCoinSum (fun id => if id = key then some val else f id) =
        mapCoinSum f + val.coins ∧
      mapAliveCount (fun id => if id = key then some val else f id) =
        mapAliveCount f + 1 := by
  constructor <;>
    (cases key <;>
      simp +decide [mapCoinSum, mapAliveCount, PlayerId.iter, coinOfOpt,
        aliveInd, hfresh] <;>
      omega)

theorem fold_alive_sums (pairs : List (PlayerId × Player)) :
    ∀ (base : PlayerId → Option Player),
      (pairs.map Prod.fst).Nodup →
      (∀ e ∈ pairs, base e.1 = none) →
      mapCoinSum (pairs.foldl
          (fun acc e => fun id => if id = e.1 then some e.2 else acc id)
          base) =
          mapCoinSum base + (pairs.map (fun e => e.2.coins)).sum ∧
        mapAliveCount (pairs.foldl
          (fun acc e => fun id => if id = e.1 then some e.2 else acc id)
          base) =
          mapAliveCount base + pairs.length := by
  induction pairs with
  | nil =>
    intro base _ _
    simp
  | cons e rest ih =>
    intro base hnd hfresh
    have hnd' : (rest.map Prod.fst).Nodup := by
      simp only [List.map_cons, List.nodup_cons] at hnd
      exact hnd.2
    have hne : ∀ e' ∈ rest, e'.1 ≠ e.1 := by
      intro e' he' hcontra
      simp only [List.map_cons, List.nodup_cons] at hnd
      exact hnd.1 (hcontra ▸ List.mem_map_of_mem Prod.fst he')
    have hfresh' : ∀ e' ∈ rest,
        (fun id => if id = e.1 then some e.2 else base id) e'.1 = none := by
      intro e' he'
      simp only [if_neg (hne e' he')]
      exact hfresh e' (List.mem_cons_of_mem e he')
    obtain ⟨ih1, ih2⟩ := ih
      (fun id => if id = e.1 then some e.2 else base id) hnd' hfresh'
    obtain ⟨u1, u2⟩ :=
      @mapCoinSum_update base e.1 e.2 (hfresh e (List.mem_cons_self e rest))
    refine ⟨?_, ?_⟩
    · show mapCoinSum (rest.foldl
          (fun acc e => fun id => if id = e.1 then some e.2 else acc id)
          (fun id => if id = e.1 then some e.2 else base id)) =
        mapCoinSum base + ((e :: rest).map (fun e => e.2.coins)).sum
      rw [List.map_cons, List.sum_cons, ih1, u1]
      exact Nat.add_assoc _ _ _
    · show mapAliveCount (rest.foldl
          (fun acc e => fun id => if id = e.1 then some e.2 else acc id)
          (fun id => if id = e.1 then some e.2 else base id)) =
        mapAliveCount base + (e :: rest).length
      rw [List.length_cons, ih2, u2, Nat.add_assoc, Nat.add_comm 1]

theorem fold_alive_mem :
    ∀ (pairs : List (PlayerId × Player)) (base : PlayerId → Option Player)
      (id : PlayerId) (p : Player),
      (pairs.foldl
          (fun acc e => fun id => if id = e.1 then some e.2 else acc id)
          base) id = some p →
      p ∈ pairs.map Prod.snd ∨ base id = some p
  | [], base, id, p => by
    intro h
    exact Or.inr h
  | e :: rest, base, id, p => by
    intro h
    simp only [List.foldl_cons] at h
    rcases fold_alive_mem rest _ id p h with hmem | hbase
    · exact Or.inl (List.mem_cons_of_mem _ hmem)
    · by_cases hid : id = e.1
      · rw [if_pos hid] at hbase
        exact Or.inl (by simp [Option.some.inj hbase])
      · rw [if_neg hid] at hbase
        exact Or.inr hbase

theorem map_fst_zip_sublist :
    ∀ (l1 : List PlayerId) (l2 : List Player),
      ((l1.zip l2).map Prod.fst).Sublist l1
  | [], _ => by simp
  | _ :: _, [] => by simp
  | a :: l1, b :: l2 => by
    simp only [List.zip_cons_cons, List.map_cons]
    exact (map_fst_zip_sublist l1 l2).cons₂ a

theorem sum_const_of_mem {c : Nat} :
    ∀ (l : List Nat), (∀ x ∈ l, x = c) → l.sum = c * l.length
  | [], _ => by simp
  | x :: rest, h => by
    simp only [List.sum_cons, List.length_cons]
    rw [h x (List.mem_cons_self x rest),
      sum_const_of_mem rest (fun y hy => h y (List.mem_cons_of_mem x hy))]
    ring

theorem chunk2_length : ∀ l : List Card, (Deck.chunk2 l).length = l.length / 2
  | [] => rfl
  | [_] => by simp [Deck.chunk2]
  | _ :: _ :: rest => by
    simp only [Deck.chunk2, List.length_cons, chunk2_length rest]
    omega

theorem mem_zip_right {α β : Type} :
    ∀ {l1 : List α} {l2 : List β} {e : α × β}, e ∈ l1.zip l2 → e.2 ∈ l2
  | [], _, e => by simp
  | _ :: _, [], e => by simp
  | a :: l1, b :: l2, e => by
    intro h
    simp only [List.zip_cons_cons, List.mem_cons] at h
    rcases h with rfl | h
    · exact List.mem_cons_self b l2
    · exact List.mem_cons_of_mem b (mem_zip_right h)

theorem coinSum_eq_mapCoinSum (ps : Players) :
    ps.coinSum = mapCoinSum ps.alive := rfl

theorem aliveCount_eq_mapAliveCount (ps : Players) :
    ps.aliveCount = mapAliveCount ps.alive := rfl

set_option maxHeartbeats 1000000 in
theorem with_players_init {rp : RawPlayers} {shuffled : List Card}
    {g : Game}
    (hcnt : rp.names.length = rp.count) (h2 : 2 ≤ rp.count)
    (h6 : rp.count ≤ 6) (hlen : shuffled.length = 15)
    (hg : CoupGame.with_players rp shuffled = some g) :
    g.data.coins = 50 - 2 * rp.count ∧
      (∀ id p, g.data.players.alive id = some p → p.coins = 2) ∧
      coinTotal g = 50 ∧
      cardTotal g = 15 ∧
      g.data.players.aliveCount = rp.count ∧
      g.data.players.deadCount = 0 ∧
      StealSafe g := by
  unfold CoupGame.with_players at hg
  dsimp only at hg
  split at hg
  · exact Option.noConfusion hg
  · rename_i players heq
    (try dsimp only at hg)
    split at hg
    · exact Option.noConfusion hg
    · rename_i pa hga
      obtain rfl := Option.some.inj hg
      unfold Players.with_players at heq
      dsimp only at heq
      split at heq
      · exact Option.noConfusion heq
      · rename_i cp hcp
        have hrec := Option.some.inj heq
        have halive : players.alive =
            (PlayerId.iter.zip
              ((rp.names.zip
                ((CoinPile.with_count rp.count).2.zip
                  (Deck.with_count shuffled rp.count).2)).map
                (fun e => { name := e.1, coins := e.2.1,
                            hand := e.2.2 : Player }))).foldl
              (fun acc e => fun id => if id = e.1 then some e.2 else acc id)
              (fun _ => none) := by
          rw [← hrec]
        have hdead : players.dead = fun _ => none := by
          rw [← hrec]
        -- facts about the data list the alive map is built from
        have hhands : (Deck.with_count shuffled rp.count).2.length =
            rp.count := by
          unfold Deck.with_count
          dsimp only
          rw [chunk2_length, List.length_drop, hlen]
          omega
        have hdata : (rp.names.zip
            ((CoinPile.with_count rp.count).2.zip
              (Deck.with_count shuffled rp.count).2)).length = rp.count := by
          rw [List.length_zip, List.length_zip, hcnt, hhands]
          unfold CoinPile.with_count
          dsimp only
          rw [List.length_replicate]
          omega
        have hpairslen : (PlayerId.iter.zip
            ((rp.names.zip
              ((CoinPile.with_count rp.count).2.zip
                (Deck.with_count shuffled rp.count).2)).map
              (fun e => { name := e.1, coins := e.2.1,
                          hand := e.2.2 : Player }))).length = rp.count := by
          rw [List.length_zip, List.length_map, hdata]
          have : PlayerId.iter.length = 6 := rfl
          rw [this]
          omega
        have hcoins2 : ∀ e ∈ (PlayerId.iter.zip
            ((rp.names.zip
              ((CoinPile.with_count rp.count).2.zip
                (Deck.with_count shuffled rp.count).2)).map
              (fun e => { name := e.1, coins := e.2.1,
                          hand := e.2.2 : Player }))),
            (e : PlayerId × Player).2.coins = 2 := by
          intro e he
          have h2nd := mem_zip_right he
          obtain ⟨y, hy, hye⟩ := List.mem_map.mp h2nd
          have hy2 := mem_zip_right hy
          have hy21 : y.2.1 ∈ (CoinPile.with_count rp.count).2 := by
            have := List.of_mem_zip hy2
            exact this.1
          unfold CoinPile.with_count at hy21
          dsimp only at hy21
          have := List.eq_of_mem_replicate hy21
          rw [← hye]
          exact this
        have hnodup : ((PlayerId.iter.zip
            ((rp.names.zip
              ((CoinPile.with_count rp.count).2.zip
                (Deck.with_count shuffled rp.count).2)).map
              (fun e => { name := e.1, coins := e.2.1,
                          hand := e.2.2 : Player }))).map Prod.fst).Nodup := by
          exact (by decide : PlayerId.iter.Nodup).sublist
            (map_fst_zip_sublist _ _)
        obtain ⟨hsum, hcount⟩ := fold_alive_sums _ (fun _ => none) hnodup
          (fun e _ => rfl)
        have hsumval : ((PlayerId.iter.zip
            ((rp.names.zip
              ((CoinPile.with_count rp.count).2.zip
                (Deck.with_count shuffled rp.count).2)).map
              (fun e => { name := e.1, coins := e.2.1,
                          hand := e.2.2 : Player }))).map
              (fun e => e.2.coins)).sum = 2 * rp.count := by
          rw [@sum_const_of_mem 2 _ (fun x hx => by
            obtain ⟨e, he, rfl⟩ := List.mem_map.mp hx
            exact hcoins2 e he)]
          rw [List.length_map, hpairslen]
        have hcs : players.coinSum = 2 * rp.count := by
          rw [coinSum_eq_mapCoinSum, halive, hsum, hsumval]
          rw [show mapCoinSum (fun _ => none) = 0 from rfl]
          rw [Nat.zero_add]
        have hac : players.aliveCount = rp.count := by
          rw [aliveCount_eq_mapAliveCount, halive, hcount, hpairslen]
          rw [show mapAliveCount (fun _ => none) = 0 from rfl]
          rw [Nat.zero_add]
        have hdc : players.deadCount = 0 := by
          unfold Players.deadCount
          rw [hdead]
          rfl
        have hdeck : (Deck.with_count shuffled rp.count).1.length =
            15 - 2 * rp.count := by
          unfold Deck.with_count
          dsimp only
          rw [List.length_take, hlen]
          exact Nat.min_eq_left (Nat.sub_le 15 (2 * rp.count))
        have hc50 : 2 * rp.count ≤ 50 :=
          Nat.le_trans (Nat.mul_le_mul_left 2 h6) (by decide)
        have hc15 : 2 * rp.count ≤ 15 :=
          Nat.le_trans (Nat.mul_le_mul_left 2 h6) (by decide)
        refine ⟨?_, ?_, ?_, ?_, ?_, hdc, trivial⟩
        · show 50 - rp.count * 2 = 50 - 2 * rp.count
          rw [Nat.mul_comm]
        · intro id p hp
          have hp2 : players.alive id = some p := hp
          rw [halive] at hp2
          rcases fold_alive_mem _ _ id p hp2 with hmem | hbase
          · obtain ⟨e, he, rfl⟩ := List.mem_map.mp hmem
            exact hcoins2 e he
          · exact Option.noConfusion hbase
        · show 50 - rp.count * 2 + players.coinSum = 50
          rw [hcs, Nat.mul_comm rp.count 2]
          exact Nat.sub_add_cancel hc50
        · show (Deck.with_count shuffled rp.count).1.length + 0 +
            2 * players.aliveCount + 2 * players.deadCount = 15
          rw [hdeck, hac, hdc]
          rw [Nat.add_zero]
          exact Nat.sub_add_cancel hc15
        · exact hac

theorem mem_iter (id : PlayerId) : id ∈ PlayerId.iter := by
  cases id <;> decide

theorem generate_actions_basic {ps : Players} {id : PlayerId}
    {pa : PossibleActions} (h : ps.generate_actions_for id = some pa) :
    pa.basic = BASIC_ACTS.map (fun a => { actor := id, kind := a }) := by
  unfold Players.generate_actions_for at h
  cases ha : ps.alive id with
  | none => rw [ha] at h; exact Option.noConfusion h
  | some p =>
    rw [ha] at h
    dsimp only at h
    obtain rfl := Option.some.inj h
    rfl

theorem generate_actions_steal_iff {ps : Players} {id : PlayerId}
    {pa : PossibleActions} (h : ps.generate_actions_for id = some pa)
    (a : Action) :
    a ∈ pa.steal ↔
      ∃ v p, a = { actor := id, kind := Act.Steal v } ∧ v ≠ id ∧
        ps.alive v = some p ∧ 2 ≤ p.coins := by
  unfold Players.generate_actions_for at h
  cases ha : ps.alive id with
  | none => rw [ha] at h; exact Option.noConfusion h
  | some p0 =>
    rw [ha] at h
    dsimp only at h
    obtain rfl := Option.some.inj h
    show a ∈ (ps.aliveIds.filter _).map _ ↔ _
    constructor
    · intro hmem
      obtain ⟨v, hv, rfl⟩ := List.mem_map.mp hmem
      obtain ⟨hvAlive, hpred⟩ := List.mem_filter.mp hv
      cases hav : ps.alive v with
      | none => rw [hav] at hpred; simp at hpred
      | some pv =>
        rw [hav] at hpred
        simp only [Player.can_steal_from, Bool.and_eq_true,
          decide_eq_true_eq] at hpred
        exact ⟨v, pv, rfl, hpred.2, hav, hpred.1⟩
    · rintro ⟨v, pv, rfl, hne, hav, hcoins⟩
      apply List.mem_map.mpr
      refine ⟨v, ?_, rfl⟩
      apply List.mem_filter.mpr
      refine ⟨?_, ?_⟩
      · apply List.mem_filter.mpr
        refine ⟨mem_iter v, by rw [hav]; rfl⟩
      · rw [hav]
        simp only [Player.can_steal_from, Bool.and_eq_true,
          decide_eq_true_eq]
        exact ⟨hcoins, hne⟩

set_option maxHeartbeats 2400000 in
theorem match_to_indices_complete : ∀ (a b c d c1 c2 : Card),
    ((match_to_indices c1 c2 [a, b, c, d]).1.isSome ∧
      (match_to_indices c1 c2 [a, b, c, d]).2.isSome) ↔
      (c1 ∈ [a, b, c, d] ∧ c2 ∈ [a, b, c, d].erase c1) := by
  decide

/-- C1: For every challenge of an actor's claim C in which the actor holds
C, resolving the challenge is claimed to make the challenger lose
influence, return the actor's copy of C to the deck, draw a replacement,
and then apply the challenged action; after a successfully defended Tax
the actor's coins should increase by 3.  In the code only the influence
loss happens: in the concrete defended-Tax scenario (Dave holds Duke,
plays Tax, Garry challenges) the engine moves Garry into ChooseVictimCard
but Dave's coins stay at 2 (no Tax applied), Dave's hand still holds the
same Duke (no shuffle back, no replacement drawn) and the deck is
untouched. -/
theorem C1_successful_defense_elides_replacement_and_effect :
    tagOf c1t = some PhaseTag.ChooseVictimCard ∧
    coinsOf g0 PlayerId.One = some 2 ∧
    coinsOf c1t PlayerId.One = some 2 ∧
    deckSizeOf g0 = some 11 ∧
    deckSizeOf c1t = some 11 ∧
    handOf g0 PlayerId.One = some (Hand.Full Card.Duke Card.Contessa) ∧
    handOf c1t PlayerId.One = some (Hand.Full Card.Duke Card.Contessa) ∧
    pileOf c1t = some 46 :=
  ⟨rfl, rfl, rfl, rfl, rfl, rfl, rfl, rfl⟩

/-- C3 counterexample: the claim says Steal is offered against each other
alive seat with at least 1 coin and that resolution never fails for a
1-coin victim.  In a concrete two-seat state where seat Two holds exactly
1 coin, the generated steal list for seat One is empty, and the coin
transfer helper aborts (checked_sub panic) on a 1-coin victim. -/
theorem C3_counterexample_one_coin_victim :
    (psOneCoin.bind (fun ps => ps.alive PlayerId.Two)).map
      (fun p => p.coins) = some 1 ∧
    actionsOneCoin.map (fun pa => pa.steal) = some [] ∧
    PlayerCoins.steal 1 2 = none :=
  ⟨rfl, rfl, rfl⟩

/-- C3 amended: a Steal action is offered against exactly the other alive
seats holding at least 2 coins, and resolving an unopposed Steal moves
exactly 2 coins from the victim to the actor; resolution against a victim
with fewer than 2 coins aborts. -/
theorem C3_steal_offered_iff_two_coins :
    (∀ (ps : Players) (id : PlayerId) (pa : PossibleActions) (a : Action),
      ps.generate_actions_for id = some pa →
      (a ∈ pa.steal ↔
        ∃ v p, a = { actor := id, kind := Act.Steal v } ∧ v ≠ id ∧
          ps.alive v = some p ∧ 2 ≤ p.coins)) ∧
    (∀ v t : Nat, 2 ≤ v → PlayerCoins.steal v t = some (v - 2, t + 2)) ∧
    (∀ v t : Nat, v < 2 → PlayerCoins.steal v t = none) := by
  refine ⟨fun ps id pa a h => generate_actions_steal_iff h a, ?_, ?_⟩
  · intro v t h
    unfold PlayerCoins.steal
    rw [if_pos h]
  · intro v t h
    unfold PlayerCoins.steal
    rw [if_neg (by omega)]

/-- Witness for C3: the amended statement applied at the concrete 1-coin
state and at concrete coin values. -/
theorem C3_steal_offered_iff_two_coins_witness :
    PlayerCoins.steal 2 0 = some (0, 2) ∧
    PlayerCoins.steal 1 5 = none ∧
    ∃ ps pa, psOneCoin = some ps ∧
      ps.generate_actions_for PlayerId.One = some pa ∧
      (({ actor := PlayerId.One, kind := Act.Steal PlayerId.Two } : Action)
          ∈ pa.steal ↔
        ∃ v p, ({ actor := PlayerId.One, kind := Act.Steal PlayerId.Two } :
            Action) = { actor := PlayerId.One, kind := Act.Steal v } ∧
          v ≠ PlayerId.One ∧ ps.alive v = some p ∧ 2 ≤ p.coins) := by
  have hps : psOneCoin.isSome = true := rfl
  have hpa : ((psOneCoin.get hps).generate_actions_for
      PlayerId.One).isSome = true := rfl
  refine ⟨C3_steal_offered_iff_two_coins.2.1 2 0 (by decide),
    C3_steal_offered_iff_two_coins.2.2 1 5 (by decide),
    psOneCoin.get hps,
    ((psOneCoin.get hps).generate_actions_for PlayerId.One).get hpa,
    (Option.some_get hps).symm, (Option.some_get hpa).symm, ?_⟩
  exact C3_steal_offered_iff_two_coins.1 _ _ _ _ (Option.some_get hpa).symm

/-- C4 counterexample: the claim says an actor with 10 or more coins is
offered only Coup actions.  In a concrete state where seat One holds 10
coins, the generated choices still contain all four basic actions
(ForeignAid, Income, Tax, Exchange), besides Coup, Steal and
Assassinate. -/
theorem C4_counterexample_ten_coins_not_only_coup :
    (psTenCoins.bind (fun ps => ps.alive PlayerId.One)).map
      (fun p => p.coins) = some 10 ∧
    actionsTenCoins.map (fun pa => pa.basic) = some
      [{ actor := PlayerId.One, kind := Act.ForeignAid },
       { actor := PlayerId.One, kind := Act.Income },
       { actor := PlayerId.One, kind := Act.Tax },
       { actor := PlayerId.One, kind := Act.Exchange }] ∧
    actionsTenCoins.map (fun pa => pa.coups) = some
      [{ actor := PlayerId.One, kind := Act.Coup PlayerId.Two }] :=
  ⟨rfl, rfl, rfl⟩

/-- C4 amended: there is no forced-coup rule; the four basic actions
Income, ForeignAid, Tax and Exchange are offered to every alive actor
unconditionally, whatever its coin count. -/
theorem C4_basic_actions_always_offered :
    ∀ (ps : Players) (id : PlayerId) (pa : PossibleActions),
      ps.generate_actions_for id = some pa →
      pa.basic = BASIC_ACTS.map (fun a => { actor := id, kind := a }) :=
  fun _ _ _ h => generate_actions_basic h

/-- Witness for C4: the amended statement applied at the concrete 10-coin
state. -/
theorem C4_basic_actions_always_offered_witness :
    ∃ ps pa, psTenCoins = some ps ∧
      ps.generate_actions_for PlayerId.One = some pa ∧
      pa.basic = BASIC_ACTS.map
        (fun a => { actor := PlayerId.One, kind := a }) := by
  have hps : psTenCoins.isSome = true := rfl
  have hpa : ((psTenCoins.get hps).generate_actions_for
      PlayerId.One).isSome = true := rfl
  exact ⟨psTenCoins.get hps,
    ((psTenCoins.get hps).generate_actions_for PlayerId.One).get hpa,
    (Option.some_get hps).symm, (Option.some_get hpa).symm,
    C4_basic_actions_always_offered _ _ _ (Option.some_get hpa).symm⟩

/-- C5: the claim (and the spec boundary behavior) says that eliminating
the current actor re-anchors the cursor on the nearest alive seat
clockwise without advancing past it twice.  CurrentPlayer::kill alone does
exactly that (the cursor lands on seat Two), but CoupGame::kill calls
end_turn afterwards, advancing a second time: in the concrete three-seat
state dC5 where current seat One loses its last influence to a failed Tax
defense, the resulting Wait phase has current seat Three, skipping the
alive seat Two. -/
theorem C5_current_actor_elimination_double_advance :
    currentOf c5pre = some PlayerId.One ∧
    killCursorOf c5pre PlayerId.One = some PlayerId.Two ∧
    tagOf c5t = some PhaseTag.Wait ∧
    isAliveIn c5t PlayerId.One = some false ∧
    isAliveIn c5t PlayerId.Two = some true ∧
    isAliveIn c5t PlayerId.Three = some true ∧
    currentOf c5t = some PlayerId.Three ∧
    PlayerId.Three ≠ PlayerId.Two :=
  ⟨rfl, rfl, rfl, rfl, rfl, rfl, rfl, by decide⟩

/-- C6 counterexample: the claim adds the coins returned to the treasury
at each death as a separate term of the conservation sum, but the code
returns a dead player's coins into the pile itself, so the three-term sum
double counts them: after Garry dies holding 2 coins, the pile is 48 and
Dave holds 2, so treasury + alive coins + coins-at-death = 52, not 50. -/
theorem C6_counterexample_death_coins_double_counted :
    coinsOf c6preKill PlayerId.Two = some 2 ∧
    tagOf c6t = some PhaseTag.End ∧
    isAliveIn c6t PlayerId.Two = some false ∧
    pileOf c6t = some 48 ∧
    coinsOf c6t PlayerId.One = some 2 ∧
    48 + 2 + 2 ≠ 50 :=
  ⟨rfl, rfl, rfl, rfl, rfl, by decide⟩

/-- C6 amended: a game with n players starts with treasury 50 - 2n and
every player at 2 coins, and every engine transition from a state without
a pending self-targeting steal, fed an input the client session could
relay, preserves treasury + alive coins = 50 exactly (a dead player's
coins are returned into the treasury at death, so they are not a separate
term). -/
theorem C6_coin_conservation :
    (∀ (rp : RawPlayers) (shuffled : List Card) (g : Game),
      rp.names.length = rp.count → 2 ≤ rp.count → rp.count ≤ 6 →
      shuffled.length = 15 →
      CoupGame.with_players rp shuffled = some g →
      g.data.coins = 50 - 2 * rp.count ∧
        (∀ id p, g.data.players.alive id = some p → p.coins = 2) ∧
        coinTotal g = 50) ∧
    (∀ (g : Game) (i : Input) (g' : Game),
      step g i = some g' → StealSafe g → LegalInput i →
      coinTotal g' = coinTotal g ∧ StealSafe g') := by
  constructor
  · intro rp shuffled g h1 h2 h6 hl hg
    obtain ⟨a, b, c, _⟩ := with_players_init h1 h2 h6 hl hg
    exact ⟨a, b, c⟩
  · intro g i g' h hs hi
    exact step_coinTotal_eq h hs hi

/-- Witness for C6: initial conservation in the concrete two-seat game and
preservation across a concrete Income transition. -/
theorem C6_coin_conservation_witness :
    ∃ g g', CoupGame.with_players rp2 deckC1 = some g ∧
      coinTotal g = 50 ∧
      step g (Input.play { actor := PlayerId.One, kind := Act.Income }) =
        some g' ∧
      coinTotal g' = coinTotal g := by
  have hg : (CoupGame.with_players rp2 deckC1).isSome = true := rfl
  have hg' : (step ((CoupGame.with_players rp2 deckC1).get hg)
      (Input.play { actor := PlayerId.One, kind := Act.Income })).isSome =
      true := rfl
  refine ⟨_, _, (Option.some_get hg).symm, ?_, (Option.some_get hg').symm,
    ?_⟩
  · exact (C6_coin_conservation.1 rp2 deckC1 _ rfl (by decide) (by decide)
      rfl (Option.some_get hg).symm).2.2
  · exact (C6_coin_conservation.2 _ _ _ (Option.some_get hg').symm
      (by exact trivial) (by exact trivial)).1

/-- C7 counterexample: after the Exchange draw the two drawn cards live in
the ChooseTwoFromFour phase payload, so the plain three-term sum of the
claim (deck + live hands + revealed dead cards) is 13, not 15, in that
reachable state. -/
theorem C7_counterexample_choose_phase_plain_total :
    plainCardTotalOf g0 = some 15 ∧
    tagOf c7t = some PhaseTag.ChooseTwoFromFour ∧
    plainCardTotalOf c7t = some 13 ∧
    (13 : Nat) ≠ 15 :=
  ⟨rfl, rfl, rfl, by decide⟩

/-- C7 amended: counting also the in-flight cards drawn by a pending
exchange (2 during ChooseOneFromThree and ChooseTwoFromFour, 0
elsewhere), the card total starts at 15 and is preserved by every engine
transition; in every other phase the plain three-term sum is the same
quantity. -/
theorem C7_card_conservation :
    (∀ (rp : RawPlayers) (shuffled : List Card) (g : Game),
      rp.names.length = rp.count → 2 ≤ rp.count → rp.count ≤ 6 →
      shuffled.length = 15 →
      CoupGame.with_players rp shuffled = some g →
      cardTotal g = 15) ∧
    (∀ (g : Game) (i : Input) (g' : Game),
      step g i = some g' → cardTotal g' = cardTotal g) ∧
    (∀ g : Game, g.phase.inFlight = 0 → cardTotal g = plainCardTotal g) := by
  refine ⟨?_, ?_, ?_⟩
  · intro rp shuffled g h1 h2 h6 hl hg
    exact (with_players_init h1 h2 h6 hl hg).2.2.2.1
  · intro g i g' h
    exact step_cardTotal_eq h
  · intro g hf
    simp [cardTotal, plainCardTotal, hf]

/-- Witness for C7: initial card total in the concrete two-seat game and
preservation across the concrete Exchange draw that leaves two cards in
flight. -/
theorem C7_card_conservation_witness :
    ∃ g g', run g0 (Input.play { actor := PlayerId.One, kind := Act.Exchange }) = some g ∧
      step g Input.advance = some g' ∧
      cardTotal g' = cardTotal g ∧
      (∃ gi, CoupGame.with_players rp2 deckC1 = some gi ∧
        cardTotal gi = 15) := by
  have hg : (run g0 (Input.play { actor := PlayerId.One, kind := Act.Exchange })).isSome = true := rfl
  have hg' : (step ((run g0 (Input.play { actor := PlayerId.One, kind := Act.Exchange })).get hg) Input.advance).isSome = true := rfl
  have hgi : (CoupGame.with_players rp2 deckC1).isSome = true := rfl
  refine ⟨_, _, (Option.some_get hg).symm, (Option.some_get hg').symm,
    C7_card_conservation.2.1 _ _ _ (Option.some_get hg').symm,
    _, (Option.some_get hgi).symm, ?_⟩
  exact C7_card_conservation.1 rp2 deckC1 _ rfl (by decide) (by decide)
    rfl (Option.some_get hgi).symm

/-- C8: a ChooseTwoFromFour selection is accepted exactly when the two
chosen cards can be assigned to distinct indices of the four presented
cards, which for a multiset is: the first choice occurs, and the second
occurs among the rest after removing one copy of the first.  On success
the two unchosen cards are returned to the deck, which grows by exactly
2.  Both spec examples hold: [Duke, Duke] is accepted from
[Duke, Duke, Ambassador, Captain] and rejected from
[Duke, Ambassador, Captain, Contessa]. -/
theorem C8_choose_two_accepts_iff_assignable :
    (∀ (a b c d c1 c2 : Card),
      ((match_to_indices c1 c2 [a, b, c, d]).1.isSome ∧
        (match_to_indices c1 c2 [a, b, c, d]).2.isSome) ↔
        (c1 ∈ [a, b, c, d] ∧ c2 ∈ [a, b, c, d].erase c1)) ∧
    (∀ (d : CoupData) (actor : PlayerId) (d1 d2 d3 d4 c1 c2 : Card)
      (g' : Game),
      ChooseTwoFromFourState.advance d actor d1 d2 d3 d4 c1 c2 = some g' →
      g'.data.deck.length = d.deck.length + 2) ∧
    ((match_to_indices Card.Duke Card.Duke
        [Card.Duke, Card.Duke, Card.Ambassador, Card.Captain]).1.isSome ∧
      (match_to_indices Card.Duke Card.Duke
        [Card.Duke, Card.Duke, Card.Ambassador, Card.Captain]).2.isSome) ∧
    ¬ ((match_to_indices Card.Duke Card.Duke
        [Card.Duke, Card.Ambassador, Card.Captain, Card.Contessa]).1.isSome ∧
      (match_to_indices Card.Duke Card.Duke
        [Card.Duke, Card.Ambassador, Card.Captain,
          Card.Contessa]).2.isSome) := by
  refine ⟨match_to_indices_complete, ?_, by decide, by decide⟩
  intro d actor d1 d2 d3 d4 c1 c2 g' h
  exact (choose_two_bundle h).2.2.2

/-- Witness for C8: the deck-growth consequence applied to a concrete
mid-exchange state where [Duke, Duke] is chosen from
[Duke, Duke, Ambassador, Captain]. -/
theorem C8_choose_two_accepts_iff_assignable_witness :
    ∃ g', ChooseTwoFromFourState.advance dW PlayerId.One Card.Duke
        Card.Duke Card.Ambassador Card.Captain Card.Duke Card.Duke =
        some g' ∧
      g'.data.deck.length = dW.deck.length + 2 := by
  have hg : (ChooseTwoFromFourState.advance dW PlayerId.One Card.Duke
      Card.Duke Card.Ambassador Card.Captain Card.Duke
      Card.Duke).isSome = true := rfl
  exact ⟨_, (Option.some_get hg).symm,
    C8_choose_two_accepts_iff_assignable.2.1 dW PlayerId.One Card.Duke
      Card.Duke Card.Ambassador Card.Captain Card.Duke Card.Duke _
      (Option.some_get hg).symm⟩

/-- C9: the claim requires the coordinator to prompt every other alive
seat to challenge a declared block and apply the block only after
unanimous passes.  The source (FIXME: handle challenging a block) applies
the block in the same select branch that received it: the embedded
handle_blockable and handle_reactable branches map a block event straight
to the advanced Wait state of the next turn, while the engine transition
they skip would have offered seat One a challenge against the blocker. -/
theorem C9_block_applied_without_challenge_window :
    tagOf c9afterBlock = some PhaseTag.Wait ∧
    coinsOf c9afterBlock PlayerId.One = some 2 ∧
    currentOf c9afterBlock = some PlayerId.Two ∧
    c9skippedChallenges = some
      [(PlayerId.One,
        { actor := PlayerId.Two, challenger := PlayerId.One,
          kind := ChallengeableAct.BlockForeignAid })] ∧
    tagOf c9afterStealBlock = some PhaseTag.Wait ∧
    coinsOf c9afterStealBlock PlayerId.One = some 2 ∧
    coinsOf c9afterStealBlock PlayerId.Two = some 2 :=
  ⟨rfl, rfl, rfl, rfl, rfl, rfl, rfl⟩

end Overthrow
